import Mathlib

/-
Verification of the schema-normalization core of the NSE bhavcopy downloader
(`nse_downloader.py`).  The pandas DataFrame is embedded as a column-oriented
table: an ordered list of (label, values) pairs.  Numeric cells follow the
float semantics relevant to this program exactly (rational value, NaN, +inf,
-inf as separate constructors); pandas library calls (`pd.to_numeric`,
`Series.replace`, arithmetic on series) are modelled at their documented
behaviour on these cells.
-/

set_option maxHeartbeats 1000000
set_option maxRecDepth 16384

namespace NSE

/-- Cell of a table: a string, a (finite) numeric value, NaN, +inf, -inf, or a
calendar date (dates are abstracted as day ordinals, which is all the
normalizer needs). -/
inductive Cell where
  | str (s : String)
  | num (q : ℚ)
  | nan
  | inf
  | neginf
  | date (d : Nat)
deriving DecidableEq

/-- Column-oriented table: ordered list of (label, values) pairs, embedding a
pandas DataFrame. -/
structure Table where
  cols : List (String × List Cell)
deriving DecidableEq

/-- Column labels, in order (pandas `df.columns`). -/
def Table.names (t : Table) : List String := t.cols.map Prod.fst

/-- Number of rows, read off the first column (for well-formed tables every
column has this length; a table with no columns has no rows). -/
def Table.nRows (t : Table) : Nat :=
  match t.cols with
  | [] => 0
  | p :: _ => p.snd.length

/-- Values of the first column labelled `n` (pandas `df[n]`), `[]` if absent. -/
def Table.getCol (t : Table) (n : String) : List Cell :=
  match t.cols.find? (fun p => decide (p.fst = n)) with
  | some p => p.snd
  | none => []

/-- Replace the values of the first column labelled `n` by `f` of them. -/
def updFirst (n : String) (f : List Cell → List Cell) :
    List (String × List Cell) → List (String × List Cell)
  | [] => []
  | p :: ps => if p.fst = n then (p.fst, f p.snd) :: ps else p :: updFirst n f ps

/-- In-place column update `df[n] = f(df[n])`. -/
def Table.mapCol (t : Table) (n : String) (f : Cell → Cell) : Table :=
  ⟨updFirst n (List.map f) t.cols⟩

/-- Append a fresh column at the end (pandas `df[n] = series` with `n` new). -/
def Table.addCol (t : Table) (n : String) (vs : List Cell) : Table :=
  ⟨t.cols ++ [(n, vs)]⟩

/-- Column selection `df[ns]`; each listed label takes the first column with
that label (the pipeline never produces duplicate selected labels from
distinct-labelled input). -/
def Table.selectCols (t : Table) (ns : List String) : Table :=
  ⟨ns.map (fun n => (n, t.getCol n))⟩

/-- Boolean list membership used for `"x" in df.columns` checks. -/
def memb (s : String) (l : List String) : Bool := l.any (fun x => decide (x = s))

/-- Does the character list start with the given needle? -/
def seqStartsWith : List Char → List Char → Bool
  | _, [] => true
  | [], _ :: _ => false
  | a :: as, b :: bs => decide (a = b) && seqStartsWith as bs

/-- Does the character list contain the needle as a contiguous run? -/
def seqContains : List Char → List Char → Bool
  | [], needle => needle.isEmpty
  | a :: as, needle => seqStartsWith (a :: as) needle || seqContains as needle

/-- Python `needle in hay` on strings. -/
def strContains (hay needle : String) : Bool := seqContains hay.toList needle.toList

/-- Python `str.lower()` (the headers are ASCII). -/
def strLower (s : String) : String := String.mk (s.toList.map Char.toLower)

/-- Label normalization `_norm` (line 63): keep alphanumeric characters,
lower-cased.  The source data is ASCII, for which `Char.isAlpha`/`isDigit`
coincide with Python `str.isalnum`. -/
def _norm (s : String) : String :=
  String.mk ((s.toList.filter (fun c => c.isAlpha || c.isDigit)).map Char.toLower)

/-- Insert-or-overwrite on an ordered association list, with Python dict
semantics: an existing key keeps its position and takes the new value, a new
key is appended at the end. -/
def updAssoc : List (String × String) → String → String → List (String × String)
  | [], k, v => [(k, v)]
  | p :: ps, k, v => if p.fst = k then (k, v) :: ps else p :: updAssoc ps k v

/-- First-match lookup on an ordered association list. -/
def lookupAssoc (m : List (String × String)) (k : String) : Option String :=
  match m.find? (fun p => decide (p.fst = k)) with
  | some p => some p.snd
  | none => none

/-- The `norm2orig` dict (line 92): normalized label -> original label, built
left to right over the columns with dict overwrite semantics. -/
def norm2orig (cols : List String) : List (String × String) :=
  cols.foldl (fun m c => updAssoc m (_norm c) c) []

/-- The synonym table `SYN` (lines 67-84).  Python stores each alias group as
a `set`, whose iteration order is hash-dependent and unspecified; the
embedding fixes the source-text declaration order as the enumeration order
(the order-sensitivity of the exact pass is addressed separately). -/
def SYN : String → List String
  | "symbol" => ["symbol"]
  | "series" => ["series"]
  | "open" => ["open", "openprice"]
  | "high" => ["high", "highprice"]
  | "low" => ["low", "lowprice"]
  | "close" => ["close", "closeprice"]
  | "last" => ["last", "lastprice"]
  | "prev_close" => ["prevclose", "previousclose", "prevclosingprice", "previousclosingprice"]
  | "vwap" => ["vwap", "avgprice", "averageprice", "averagepricevwap", "avgtradedprice"]
  | "volume" => ["volume", "tottrdqty", "totaltradedquantity", "ttltrdqnty", "tradedquantity",
                 "totaltradedqty", "totaltrdqnty", "volumein000s"]
  | "turnover" => ["turnover", "tottrdval", "totaltradedvalue", "turnoverlacs", "turnoverinlakhs",
                   "turnoverlac", "turnovercr", "turnoverincrores", "turnovercrores"]
  | "trades" => ["trades", "totaltrades", "nooftrades", "nooftrade", "nooftrds", "noofdealings"]
  | "deliv_vol" => ["deliverablevolume", "delivqty", "deliverablevolumecontracts",
                    "deliverablequantity", "deliveryqty", "deliveryquantity"]
  | "deliv_pct" => ["deliverable", "deliverableper", "deliverablepercentage", "deliverablepct",
                    "deliverytotradedquantity", "delivper", "percentdeliverable",
                    "deliverablepercent", "percentdeliv", "percdeliv"]
  | "datecol" => ["timestamp", "date", "tradingdate", "tradedate", "tradingday"]
  | "isin" => ["isin"]
  | _ => []

/-- Column identification `find_col` (lines 94-104): an exact pass over the
alias keys (first alias found among the normalized labels wins), then, only
if the exact pass found nothing, a fuzzy pass over the labels in their
insertion order (first label containing any alias as a substring wins). -/
def find_col (m : List (String × String)) (keys : List String) : Option String :=
  match keys.find? (fun k => (lookupAssoc m k).isSome) with
  | some k => lookupAssoc m k
  | none =>
    match m.find? (fun p => keys.any (fun k => strContains p.fst k)) with
    | some p => some p.snd
    | none => none

/-- Python truthiness of the optional picked column name (`if c_symbol:`):
present and non-empty. -/
def truthy : Option String → Bool
  | none => false
  | some s => !s.isEmpty

/-- The fields picked by `standardize_bhavcopy` (lines 111-125) with their
canonical output names (lines 128-142), in source order. -/
def pickPairs : List (String × String) :=
  [("symbol", "Symbol"), ("series", "Series"), ("open", "Open"), ("high", "High"),
   ("low", "Low"), ("close", "Close"), ("last", "Last"), ("prev_close", "Prev Close"),
   ("vwap", "VWAP"), ("volume", "Volume"), ("turnover", "Turnover"), ("trades", "Trades"),
   ("deliv_vol", "Deliverable Volume"), ("deliv_pct", "Deliverable %"), ("isin", "ISIN")]

/-- The `rename_map` dict (lines 109-142): for each picked field in source
order, if its column resolved (truthily), map that original column name to
the canonical name, overwriting any earlier entry for the same column. -/
def renamePlan (header : List String) : List (String × String) :=
  pickPairs.foldl
    (fun m fp =>
      match find_col (norm2orig header) (SYN fp.fst) with
      | some c => if c.isEmpty then m else updAssoc m c fp.snd
      | none => m)
    []

/-- Apply a rename map to one label (`df.rename` semantics: unmapped labels
are kept). -/
def applyRename (rm : List (String × String)) (c : String) : String :=
  match lookupAssoc rm c with
  | some v => v
  | none => c

/-- `df.rename(columns=rename_map)` (line 144). -/
def renameTable (t : Table) (rm : List (String × String)) : Table :=
  ⟨t.cols.map (fun p => (applyRename rm p.fst, p.snd))⟩

/-- `pd.to_numeric(-, errors="coerce")` on one cell: numeric cells (including
NaN and infinities) pass through, anything non-numeric coerces to NaN.
(Parsing of numeric strings is a library boundary not exercised by any
claim; non-numeric cells coerce to NaN exactly as in pandas.) -/
def toNumeric : Cell → Cell
  | Cell.num q => Cell.num q
  | Cell.nan => Cell.nan
  | Cell.inf => Cell.inf
  | Cell.neginf => Cell.neginf
  | Cell.str _ => Cell.nan
  | Cell.date _ => Cell.nan

/-- Multiplication of a cell by a positive rational constant (the unit
factors 1000, 1e5, 1e7 and the percentage factor 100), with float
propagation of NaN and infinities. -/
def pmul (v : Cell) (c : ℚ) : Cell :=
  match v with
  | Cell.num q => Cell.num (q * c)
  | Cell.inf => Cell.inf
  | Cell.neginf => Cell.neginf
  | _ => Cell.nan

/-- Cellwise float division: finite/finite is exact, division of a nonzero
value by zero gives a signed infinity, 0/0 gives NaN, NaN propagates,
inf/finite keeps the (sign-adjusted) infinity, finite/inf is 0. -/
def pdiv (a b : Cell) : Cell :=
  match a, b with
  | Cell.num x, Cell.num y =>
    if y = 0 then (if x > 0 then Cell.inf else if x < 0 then Cell.neginf else Cell.nan)
    else Cell.num (x / y)
  | Cell.num _, Cell.inf => Cell.num 0
  | Cell.num _, Cell.neginf => Cell.num 0
  | Cell.inf, Cell.num y => if y < 0 then Cell.neginf else Cell.inf
  | Cell.neginf, Cell.num y => if y < 0 then Cell.inf else Cell.neginf
  | _, _ => Cell.nan

/-- `.replace([pd.NA], None)` evaluated inside
`pd.option_context('mode.use_inf_as_na', True)` (lines 176-177): with the
option active `isna` treats infinities as NA, so NaN and both infinities are
replaced by None, which a float column stores as NaN. -/
def replaceNaInfAsNa : Cell → Cell
  | Cell.inf => Cell.nan
  | Cell.neginf => Cell.nan
  | v => v

/-- `.replace([pd.NA], None)` outside the option context (line 181): only NA
values (NaN) match, and None is stored back as NaN, so every cell - in
particular an infinity - is left as it is. -/
def replaceNaPlain : Cell → Cell
  | Cell.nan => Cell.nan
  | v => v

/-- The canonical output column order (lines 184-187). -/
def cols_order : List String :=
  ["Date", "Symbol", "Series", "Prev Close", "Open", "High", "Low", "Last", "Close",
   "VWAP", "Volume", "Turnover", "Trades", "Deliverable Volume", "Deliverable %", "ISIN"]

/-- `df["Date"] = report_date` (line 147): overwrite the Date column with the
supplied date on every row, or append it if absent. -/
def setColDate (t : Table) (d : Nat) : Table :=
  if memb "Date" t.names then
    ⟨updFirst "Date" (fun _ => List.replicate t.nRows (Cell.date d)) t.cols⟩
  else
    ⟨t.cols ++ [("Date", List.replicate t.nRows (Cell.date d))]⟩

/-- Volume unit normalization (lines 150-156), keyed on the original resolved
column name: a name containing "000" or "thousand" (case-insensitively)
scales coerced values by 1000, otherwise they are only coerced. -/
def volumeStep (t : Table) (c_vol : Option String) : Table :=
  if memb "Volume" t.names && truthy c_vol then
    let src := strLower (c_vol.getD "")
    if strContains src "000" || strContains src "thousand" then
      t.mapCol "Volume" (fun v => pmul (toNumeric v) 1000)
    else
      t.mapCol "Volume" toNumeric
  else t

/-- Turnover unit normalization (lines 158-167): lakh-hinted names scale by
1e5, else crore-hinted names scale by 1e7, otherwise values are only
coerced. -/
def turnoverStep (t : Table) (c_val : Option String) : Table :=
  if memb "Turnover" t.names && truthy c_val then
    let src := strLower (c_val.getD "")
    if strContains src "lakh" || strContains src "lac" || strContains src "lacs" then
      t.mapCol "Turnover" (fun v => pmul (toNumeric v) 100000)
    else if strContains src "cr" || strContains src "crore" || strContains src "crores" then
      t.mapCol "Turnover" (fun v => pmul (toNumeric v) 10000000)
    else
      t.mapCol "Turnover" toNumeric
  else t

/-- The numeric fields coerced in the loop of lines 170-172, in source
order. -/
def priceCols : List String :=
  ["Open", "High", "Low", "Close", "Last", "Prev Close", "VWAP", "Trades",
   "Deliverable Volume", "Deliverable %"]

/-- One iteration of the numeric-coercion loop (lines 170-172): coerce the
column if it is present. -/
def coerceCol (c : String) (t : Table) : Table :=
  if memb c t.names then t.mapCol c toNumeric else t

/-- Numeric coercion of the price-like fields (lines 170-172). -/
def priceCoerceStep (t : Table) : Table :=
  priceCols.foldl (fun t c => coerceCol c t) t

/-- VWAP derivation (lines 174-177): only when VWAP is entirely absent and
both operands are present; the division result is cleaned with
`use_inf_as_na` active. -/
def vwapStep (t : Table) : Table :=
  if !memb "VWAP" t.names && memb "Turnover" t.names && memb "Volume" t.names then
    t.addCol "VWAP"
      (List.zipWith (fun a b => replaceNaInfAsNa (pdiv a b))
        (t.getCol "Turnover") (t.getCol "Volume"))
  else t

/-- Deliverable % derivation (lines 179-181): only when the column is
entirely absent and both operands are present; note that this `replace` runs
outside the `use_inf_as_na` context. -/
def delivPctStep (t : Table) : Table :=
  if !memb "Deliverable %" t.names && memb "Deliverable Volume" t.names
      && memb "Volume" t.names then
    t.addCol "Deliverable %"
      (List.zipWith (fun a b => replaceNaPlain (pmul (pdiv a b) 100))
        (t.getCol "Deliverable Volume") (t.getCol "Volume"))
  else t

/-- Final column ordering (lines 183-191): canonical columns that are present
first, in the fixed order, then all remaining columns. -/
def reorderStep (t : Table) : Table :=
  let present := cols_order.filter (fun c => memb c t.names)
  let extras := t.names.filter (fun c => !memb c present)
  t.selectCols (present ++ extras)

/-- `standardize_bhavcopy` (lines 86-193): absent or empty input gives the
"no data" signal `none`; otherwise resolve columns, rename, stamp the date,
normalize units, coerce numerics, derive missing fields and reorder. -/
def standardize_bhavcopy (odf : Option Table) (report_date : Nat) : Option Table :=
  match odf with
  | none => none
  | some df =>
    if df.nRows = 0 then none
    else
      let m := norm2orig df.names
      let c_vol := find_col m (SYN "volume")
      let c_val := find_col m (SYN "turnover")
      let t1 := renameTable df (renamePlan df.names)
      let t2 := setColDate t1 report_date
      let t3 := volumeStep t2 c_vol
      let t4 := turnoverStep t3 c_val
      let t5 := priceCoerceStep t4
      let t6 := vwapStep t5
      let t7 := delivPctStep t6
      some (reorderStep t7)

/-- The fixed watchlist (lines 196-204). -/
def WATCHLIST : List String :=
  ["RELIANCE", "HDFCBANK", "BHARTIARTL", "TCS", "ICICIBANK", "SBIN", "BAJFINANCE",
   "INFY", "HINDUNILVR", "LICI", "MARUTI", "LT", "ITC", "M&M", "KOTAKBANK",
   "SUNPHARMA", "HCLTECH", "AXISBANK", "ULTRACEMCO", "NTPC", "BAJAJFINSV",
   "HAL", "ADANIPORTS", "ONGC", "TITAN", "DMART", "ADANIENT", "BEL", "ADANIPOWER",
   "JSWSTEEL", "POWERGRID", "WIPRO", "BAJAJ-AUTO", "TATAMOTORS", "COALINDIA",
   "ASIANPAINT", "NESTLEIND", "TATASTEEL", "IOC", "HINDZINC",
   "EICHERMOT", "GRASIM", "SBILIFE", "VEDL", "DLF", "ADANIGREEN"]

/-- `Series.isin(watchlist)` on one cell: exact, case-sensitive string
membership; non-string cells never match. -/
def cellInWatch (wl : List String) : Cell → Bool
  | Cell.str s => wl.any (fun x => decide (x = s))
  | _ => false

/-- Boolean-mask row selection, applied to one column's values. -/
def maskFilter {α : Type} : List Bool → List α → List α
  | true :: bs, v :: vs => v :: maskFilter bs vs
  | false :: bs, _ :: vs => maskFilter bs vs
  | _, _ => []

/-- `filter_selected_stocks` (lines 206-211): absent or empty input gives an
empty frame; otherwise keep the rows whose Symbol is in the watchlist.
(A non-empty table without a Symbol column raises KeyError in pandas; here
`getCol` returns `[]` there, so theorems about this function assume the
Symbol column is present.) -/
def filter_selected_stocks (odf : Option Table) (watchlist : List String) : Table :=
  match odf with
  | none => ⟨[]⟩
  | some t =>
    if t.nRows = 0 then ⟨[]⟩
    else
      let mask := (t.getCol "Symbol").map (cellInWatch watchlist)
      ⟨t.cols.map (fun p => (p.fst, maskFilter mask p.snd))⟩

/-- Row view of a column-oriented table: the i-th row is the list of the i-th
entries of all columns. -/
def colsToRows : Nat → List (String × List Cell) → List (List Cell)
  | 0, _ => []
  | n + 1, cs =>
    cs.map (fun p => p.snd.headD Cell.nan)
      :: colsToRows n (cs.map (fun p => (p.fst, p.snd.tail)))

/-- Rows of a table. -/
def Table.rowsOf (t : Table) : List (List Cell) := colsToRows t.nRows t.cols

/-- Well-formedness: every column has the common row count. -/
def Table.WF (t : Table) : Prop := ∀ p ∈ t.cols, p.snd.length = t.nRows

/-- Index of the first occurrence of a label. -/
def firstIdx (n : String) : List String → Nat
  | [] => 0
  | s :: rest => if s = n then 0 else firstIdx n rest + 1

/-- The Symbol cell of a row of table `t`. -/
def rowSym (t : Table) (r : List Cell) : Cell := r.getD (firstIdx "Symbol" t.names) Cell.nan

/-- Last element of a list of canonical names, if any. -/
def lastOf : List String → Option String
  | [] => none
  | a :: rest =>
    match lastOf rest with
    | some v => some v
    | none => some a

/-- Number of `true` entries of a boolean mask. -/
def trueCount : List Bool → Nat
  | [] => 0
  | b :: bs => trueCount bs + (if b then 1 else 0)

/-- The sequence of canonical names written into the rename map for a given
original column, in pick order: field `fp` contributes its canonical name
exactly when its resolution is the (truthy) column `col`. -/
def planWrites (header : List String) (col : String) : List String :=
  pickPairs.filterMap
    (fun fp =>
      match find_col (norm2orig header) (SYN fp.fst) with
      | some c => if c.isEmpty then none else if c = col then some fp.snd else none
      | none => none)

end NSE

namespace NSE

/-- Unfolding of `standardize_bhavcopy` on a present table into its
empty-check and pipeline. -/
theorem standardize_ite (df : Table) (d : Nat) :
    standardize_bhavcopy (some df) d
      = if df.nRows = 0 then none
        else some (reorderStep (delivPctStep (vwapStep (priceCoerceStep
          (turnoverStep
            (volumeStep (setColDate (renameTable df (renamePlan df.names)) d)
              (find_col (norm2orig df.names) (SYN "volume")))
            (find_col (norm2orig df.names) (SYN "turnover"))))))) := rfl

/-- Unfolding of `standardize_bhavcopy` on a table that is not empty. -/
theorem standardize_some (df : Table) (d : Nat) (h : ¬ df.nRows = 0) :
    standardize_bhavcopy (some df) d
      = some (reorderStep (delivPctStep (vwapStep (priceCoerceStep
          (turnoverStep
            (volumeStep (setColDate (renameTable df (renamePlan df.names)) d)
              (find_col (norm2orig df.names) (SYN "volume")))
            (find_col (norm2orig df.names) (SYN "turnover"))))))) := by
  rw [standardize_ite, if_neg h]

end NSE

namespace NSE

/-- Unfolding of the numeric-coercion loop over its fixed column list. -/
theorem priceCoerceStep_unfold (t : Table) :
    priceCoerceStep t
      = coerceCol "Deliverable %" (coerceCol "Deliverable Volume" (coerceCol "Trades"
          (coerceCol "VWAP" (coerceCol "Prev Close" (coerceCol "Last" (coerceCol "Close"
            (coerceCol "Low" (coerceCol "High" (coerceCol "Open" t))))))))) := by
  simp only [priceCoerceStep, priceCols, List.foldl]

/-- C5: unit normalization is idempotent on the canonical representation.
For every non-empty table whose header is exactly the canonical column list
(so no unit hints remain) and whose Volume and Turnover cells are numeric
(the canonical nullable-numeric typing), running the normalizer again
returns the Volume and Turnover columns unchanged: no multiplication by
1000, 1e5 or 1e7 is applied. -/
theorem C5_idempotent_on_canonical
    (v0 v1 v2 v3 v4 v5 v6 v7 v8 v9 v10 v11 v12 v13 v14 v15 : List Cell) (d : Nat)
    (h0 : v0 ≠ [])
    (hVol : ∀ c ∈ v10, toNumeric c = c) (hTurn : ∀ c ∈ v11, toNumeric c = c) :
    ∃ out,
      standardize_bhavcopy (some ⟨[("Date", v0), ("Symbol", v1), ("Series", v2), ("Prev Close", v3), ("Open", v4), ("High", v5), ("Low", v6), ("Last", v7), ("Close", v8), ("VWAP", v9), ("Volume", v10), ("Turnover", v11), ("Trades", v12), ("Deliverable Volume", v13), ("Deliverable %", v14), ("ISIN", v15)]⟩) d = some out ∧
        out.getCol "Volume" = v10 ∧ out.getCol "Turnover" = v11 := by
  refine ⟨⟨[("Date", List.replicate v0.length (Cell.date d)), ("Symbol", v1), ("Series", v2), ("Prev Close", List.map toNumeric v3), ("Open", List.map toNumeric v4), ("High", List.map toNumeric v5), ("Low", List.map toNumeric v6), ("Last", List.map toNumeric v7), ("Close", List.map toNumeric v8), ("VWAP", List.map toNumeric v9), ("Volume", List.map toNumeric v10), ("Turnover", List.map toNumeric v11), ("Trades", List.map toNumeric v12), ("Deliverable Volume", List.map toNumeric v13), ("Deliverable %", List.map toNumeric v14), ("ISIN", v15)]⟩, ?_, ?_, ?_⟩
  · have hh : ¬ Table.nRows (⟨[("Date", v0), ("Symbol", v1), ("Series", v2), ("Prev Close", v3), ("Open", v4), ("High", v5), ("Low", v6), ("Last", v7), ("Close", v8), ("VWAP", v9), ("Volume", v10), ("Turnover", v11), ("Trades", v12), ("Deliverable Volume", v13), ("Deliverable %", v14), ("ISIN", v15)]⟩ : Table) = 0 := fun hz => h0 (List.length_eq_zero.mp hz)
    rw [standardize_some _ d hh]
    have hn : Table.names (⟨[("Date", v0), ("Symbol", v1), ("Series", v2), ("Prev Close", v3), ("Open", v4), ("High", v5), ("Low", v6), ("Last", v7), ("Close", v8), ("VWAP", v9), ("Volume", v10), ("Turnover", v11), ("Trades", v12), ("Deliverable Volume", v13), ("Deliverable %", v14), ("ISIN", v15)]⟩ : Table) = cols_order := rfl
    rw [hn]
    have e0 : renamePlan cols_order = [("Symbol", "Symbol"), ("Series", "Series"), ("Open", "Open"), ("High", "High"), ("Low", "Low"), ("Close", "Close"), ("Last", "Last"), ("Prev Close", "Prev Close"), ("VWAP", "VWAP"), ("Volume", "Volume"), ("Turnover", "Turnover"), ("Trades", "Trades"), ("Deliverable Volume", "Deliverable Volume"), ("Deliverable %", "Deliverable %"), ("ISIN", "ISIN")] := by decide
    have ecv : find_col (norm2orig cols_order) (SYN "volume") = some "Volume" := by decide
    have ecl : find_col (norm2orig cols_order) (SYN "turnover") = some "Turnover" := by decide
    rw [e0, ecv, ecl]
    have e1 : renameTable (⟨[("Date", v0), ("Symbol", v1), ("Series", v2), ("Prev Close", v3), ("Open", v4), ("High", v5), ("Low", v6), ("Last", v7), ("Close", v8), ("VWAP", v9), ("Volume", v10), ("Turnover", v11), ("Trades", v12), ("Deliverable Volume", v13), ("Deliverable %", v14), ("ISIN", v15)]⟩ : Table) [("Symbol", "Symbol"), ("Series", "Series"), ("Open", "Open"), ("High", "High"), ("Low", "Low"), ("Close", "Close"), ("Last", "Last"), ("Prev Close", "Prev Close"), ("VWAP", "VWAP"), ("Volume", "Volume"), ("Turnover", "Turnover"), ("Trades", "Trades"), ("Deliverable Volume", "Deliverable Volume"), ("Deliverable %", "Deliverable %"), ("ISIN", "ISIN")] = (⟨[("Date", v0), ("Symbol", v1), ("Series", v2), ("Prev Close", v3), ("Open", v4), ("High", v5), ("Low", v6), ("Last", v7), ("Close", v8), ("VWAP", v9), ("Volume", v10), ("Turnover", v11), ("Trades", v12), ("Deliverable Volume", v13), ("Deliverable %", v14), ("ISIN", v15)]⟩ : Table) := rfl
    rw [e1]
    have e2 : setColDate (⟨[("Date", v0), ("Symbol", v1), ("Series", v2), ("Prev Close", v3), ("Open", v4), ("High", v5), ("Low", v6), ("Last", v7), ("Close", v8), ("VWAP", v9), ("Volume", v10), ("Turnover", v11), ("Trades", v12), ("Deliverable Volume", v13), ("Deliverable %", v14), ("ISIN", v15)]⟩ : Table) d = (⟨[("Date", List.replicate v0.length (Cell.date d)), ("Symbol", v1), ("Series", v2), ("Prev Close", v3), ("Open", v4), ("High", v5), ("Low", v6), ("Last", v7), ("Close", v8), ("VWAP", v9), ("Volume", v10), ("Turnover", v11), ("Trades", v12), ("Deliverable Volume", v13), ("Deliverable %", v14), ("ISIN", v15)]⟩ : Table) := rfl
    rw [e2]
    have e3 : volumeStep (⟨[("Date", List.replicate v0.length (Cell.date d)), ("Symbol", v1), ("Series", v2), ("Prev Close", v3), ("Open", v4), ("High", v5), ("Low", v6), ("Last", v7), ("Close", v8), ("VWAP", v9), ("Volume", v10), ("Turnover", v11), ("Trades", v12), ("Deliverable Volume", v13), ("Deliverable %", v14), ("ISIN", v15)]⟩ : Table) (some "Volume") = (⟨[("Date", List.replicate v0.length (Cell.date d)), ("Symbol", v1), ("Series", v2), ("Prev Close", v3), ("Open", v4), ("High", v5), ("Low", v6), ("Last", v7), ("Close", v8), ("VWAP", v9), ("Volume", List.map toNumeric v10), ("Turnover", v11), ("Trades", v12), ("Deliverable Volume", v13), ("Deliverable %", v14), ("ISIN", v15)]⟩ : Table) := rfl
    rw [e3]
    have e4 : turnoverStep (⟨[("Date", List.replicate v0.length (Cell.date d)), ("Symbol", v1), ("Series", v2), ("Prev Close", v3), ("Open", v4), ("High", v5), ("Low", v6), ("Last", v7), ("Close", v8), ("VWAP", v9), ("Volume", List.map toNumeric v10), ("Turnover", v11), ("Trades", v12), ("Deliverable Volume", v13), ("Deliverable %", v14), ("ISIN", v15)]⟩ : Table) (some "Turnover") = (⟨[("Date", List.replicate v0.length (Cell.date d)), ("Symbol", v1), ("Series", v2), ("Prev Close", v3), ("Open", v4), ("High", v5), ("Low", v6), ("Last", v7), ("Close", v8), ("VWAP", v9), ("Volume", List.map toNumeric v10), ("Turnover", List.map toNumeric v11), ("Trades", v12), ("Deliverable Volume", v13), ("Deliverable %", v14), ("ISIN", v15)]⟩ : Table) := rfl
    rw [e4]
    rw [priceCoerceStep_unfold]
    have f0 : coerceCol "Open" (⟨[("Date", List.replicate v0.length (Cell.date d)), ("Symbol", v1), ("Series", v2), ("Prev Close", v3), ("Open", v4), ("High", v5), ("Low", v6), ("Last", v7), ("Close", v8), ("VWAP", v9), ("Volume", List.map toNumeric v10), ("Turnover", List.map toNumeric v11), ("Trades", v12), ("Deliverable Volume", v13), ("Deliverable %", v14), ("ISIN", v15)]⟩ : Table) = (⟨[("Date", List.replicate v0.length (Cell.date d)), ("Symbol", v1), ("Series", v2), ("Prev Close", v3), ("Open", List.map toNumeric v4), ("High", v5), ("Low", v6), ("Last", v7), ("Close", v8), ("VWAP", v9), ("Volume", List.map toNumeric v10), ("Turnover", List.map toNumeric v11), ("Trades", v12), ("Deliverable Volume", v13), ("Deliverable %", v14), ("ISIN", v15)]⟩ : Table) := rfl
    rw [f0]
    have f1 : coerceCol "High" (⟨[("Date", List.replicate v0.length (Cell.date d)), ("Symbol", v1), ("Series", v2), ("Prev Close", v3), ("Open", List.map toNumeric v4), ("High", v5), ("Low", v6), ("Last", v7), ("Close", v8), ("VWAP", v9), ("Volume", List.map toNumeric v10), ("Turnover", List.map toNumeric v11), ("Trades", v12), ("Deliverable Volume", v13), ("Deliverable %", v14), ("ISIN", v15)]⟩ : Table) = (⟨[("Date", List.replicate v0.length (Cell.date d)), ("Symbol", v1), ("Series", v2), ("Prev Close", v3), ("Open", List.map toNumeric v4), ("High", List.map toNumeric v5), ("Low", v6), ("Last", v7), ("Close", v8), ("VWAP", v9), ("Volume", List.map toNumeric v10), ("Turnover", List.map toNumeric v11), ("Trades", v12), ("Deliverable Volume", v13), ("Deliverable %", v14), ("ISIN", v15)]⟩ : Table) := rfl
    rw [f1]
    have f2 : coerceCol "Low" (⟨[("Date", List.replicate v0.length (Cell.date d)), ("Symbol", v1), ("Series", v2), ("Prev Close", v3), ("Open", List.map toNumeric v4), ("High", List.map toNumeric v5), ("Low", v6), ("Last", v7), ("Close", v8), ("VWAP", v9), ("Volume", List.map toNumeric v10), ("Turnover", List.map toNumeric v11), ("Trades", v12), ("Deliverable Volume", v13), ("Deliverable %", v14), ("ISIN", v15)]⟩ : Table) = (⟨[("Date", List.replicate v0.length (Cell.date d)), ("Symbol", v1), ("Series", v2), ("Prev Close", v3), ("Open", List.map toNumeric v4), ("High", List.map toNumeric v5), ("Low", List.map toNumeric v6), ("Last", v7), ("Close", v8), ("VWAP", v9), ("Volume", List.map toNumeric v10), ("Turnover", List.map toNumeric v11), ("Trades", v12), ("Deliverable Volume", v13), ("Deliverable %", v14), ("ISIN", v15)]⟩ : Table) := rfl
    rw [f2]
    have f3 : coerceCol "Close" (⟨[("Date", List.replicate v0.length (Cell.date d)), ("Symbol", v1), ("Series", v2), ("Prev Close", v3), ("Open", List.map toNumeric v4), ("High", List.map toNumeric v5), ("Low", List.map toNumeric v6), ("Last", v7), ("Close", v8), ("VWAP", v9), ("Volume", List.map toNumeric v10), ("Turnover", List.map toNumeric v11), ("Trades", v12), ("Deliverable Volume", v13), ("Deliverable %", v14), ("ISIN", v15)]⟩ : Table) = (⟨[("Date", List.replicate v0.length (Cell.date d)), ("Symbol", v1), ("Series", v2), ("Prev Close", v3), ("Open", List.map toNumeric v4), ("High", List.map toNumeric v5), ("Low", List.map toNumeric v6), ("Last", v7), ("Close", List.map toNumeric v8), ("VWAP", v9), ("Volume", List.map toNumeric v10), ("Turnover", List.map toNumeric v11), ("Trades", v12), ("Deliverable Volume", v13), ("Deliverable %", v14), ("ISIN", v15)]⟩ : Table) := rfl
    rw [f3]
    have f4 : coerceCol "Last" (⟨[("Date", List.replicate v0.length (Cell.date d)), ("Symbol", v1), ("Series", v2), ("Prev Close", v3), ("Open", List.map toNumeric v4), ("High", List.map toNumeric v5), ("Low", List.map toNumeric v6), ("Last", v7), ("Close", List.map toNumeric v8), ("VWAP", v9), ("Volume", List.map toNumeric v10), ("Turnover", List.map toNumeric v11), ("Trades", v12), ("Deliverable Volume", v13), ("Deliverable %", v14), ("ISIN", v15)]⟩ : Table) = (⟨[("Date", List.replicate v0.length (Cell.date d)), ("Symbol", v1), ("Series", v2), ("Prev Close", v3), ("Open", List.map toNumeric v4), ("High", List.map toNumeric v5), ("Low", List.map toNumeric v6), ("Last", List.map toNumeric v7), ("Close", List.map toNumeric v8), ("VWAP", v9), ("Volume", List.map toNumeric v10), ("Turnover", List.map toNumeric v11), ("Trades", v12), ("Deliverable Volume", v13), ("Deliverable %", v14), ("ISIN", v15)]⟩ : Table) := rfl
    rw [f4]
    have f5 : coerceCol "Prev Close" (⟨[("Date", List.replicate v0.length (Cell.date d)), ("Symbol", v1), ("Series", v2), ("Prev Close", v3), ("Open", List.map toNumeric v4), ("High", List.map toNumeric v5), ("Low", List.map toNumeric v6), ("Last", List.map toNumeric v7), ("Close", List.map toNumeric v8), ("VWAP", v9), ("Volume", List.map toNumeric v10), ("Turnover", List.map toNumeric v11), ("Trades", v12), ("Deliverable Volume", v13), ("Deliverable %", v14), ("ISIN", v15)]⟩ : Table) = (⟨[("Date", List.replicate v0.length (Cell.date d)), ("Symbol", v1), ("Series", v2), ("Prev Close", List.map toNumeric v3), ("Open", List.map toNumeric v4), ("High", List.map toNumeric v5), ("Low", List.map toNumeric v6), ("Last", List.map toNumeric v7), ("Close", List.map toNumeric v8), ("VWAP", v9), ("Volume", List.map toNumeric v10), ("Turnover", List.map toNumeric v11), ("Trades", v12), ("Deliverable Volume", v13), ("Deliverable %", v14), ("ISIN", v15)]⟩ : Table) := rfl
    rw [f5]
    have f6 : coerceCol "VWAP" (⟨[("Date", List.replicate v0.length (Cell.date d)), ("Symbol", v1), ("Series", v2), ("Prev Close", List.map toNumeric v3), ("Open", List.map toNumeric v4), ("High", List.map toNumeric v5), ("Low", List.map toNumeric v6), ("Last", List.map toNumeric v7), ("Close", List.map toNumeric v8), ("VWAP", v9), ("Volume", List.map toNumeric v10), ("Turnover", List.map toNumeric v11), ("Trades", v12), ("Deliverable Volume", v13), ("Deliverable %", v14), ("ISIN", v15)]⟩ : Table) = (⟨[("Date", List.replicate v0.length (Cell.date d)), ("Symbol", v1), ("Series", v2), ("Prev Close", List.map toNumeric v3), ("Open", List.map toNumeric v4), ("High", List.map toNumeric v5), ("Low", List.map toNumeric v6), ("Last", List.map toNumeric v7), ("Close", List.map toNumeric v8), ("VWAP", List.map toNumeric v9), ("Volume", List.map toNumeric v10), ("Turnover", List.map toNumeric v11), ("Trades", v12), ("Deliverable Volume", v13), ("Deliverable %", v14), ("ISIN", v15)]⟩ : Table) := rfl
    rw [f6]
    have f7 : coerceCol "Trades" (⟨[("Date", List.replicate v0.length (Cell.date d)), ("Symbol", v1), ("Series", v2), ("Prev Close", List.map toNumeric v3), ("Open", List.map toNumeric v4), ("High", List.map toNumeric v5), ("Low", List.map toNumeric v6), ("Last", List.map toNumeric v7), ("Close", List.map toNumeric v8), ("VWAP", List.map toNumeric v9), ("Volume", List.map toNumeric v10), ("Turnover", List.map toNumeric v11), ("Trades", v12), ("Deliverable Volume", v13), ("Deliverable %", v14), ("ISIN", v15)]⟩ : Table) = (⟨[("Date", List.replicate v0.length (Cell.date d)), ("Symbol", v1), ("Series", v2), ("Prev Close", List.map toNumeric v3), ("Open", List.map toNumeric v4), ("High", List.map toNumeric v5), ("Low", List.map toNumeric v6), ("Last", List.map toNumeric v7), ("Close", List.map toNumeric v8), ("VWAP", List.map toNumeric v9), ("Volume", List.map toNumeric v10), ("Turnover", List.map toNumeric v11), ("Trades", List.map toNumeric v12), ("Deliverable Volume", v13), ("Deliverable %", v14), ("ISIN", v15)]⟩ : Table) := rfl
    rw [f7]
    have f8 : coerceCol "Deliverable Volume" (⟨[("Date", List.replicate v0.length (Cell.date d)), ("Symbol", v1), ("Series", v2), ("Prev Close", List.map toNumeric v3), ("Open", List.map toNumeric v4), ("High", List.map toNumeric v5), ("Low", List.map toNumeric v6), ("Last", List.map toNumeric v7), ("Close", List.map toNumeric v8), ("VWAP", List.map toNumeric v9), ("Volume", List.map toNumeric v10), ("Turnover", List.map toNumeric v11), ("Trades", List.map toNumeric v12), ("Deliverable Volume", v13), ("Deliverable %", v14), ("ISIN", v15)]⟩ : Table) = (⟨[("Date", List.replicate v0.length (Cell.date d)), ("Symbol", v1), ("Series", v2), ("Prev Close", List.map toNumeric v3), ("Open", List.map toNumeric v4), ("High", List.map toNumeric v5), ("Low", List.map toNumeric v6), ("Last", List.map toNumeric v7), ("Close", List.map toNumeric v8), ("VWAP", List.map toNumeric v9), ("Volume", List.map toNumeric v10), ("Turnover", List.map toNumeric v11), ("Trades", List.map toNumeric v12), ("Deliverable Volume", List.map toNumeric v13), ("Deliverable %", v14), ("ISIN", v15)]⟩ : Table) := rfl
    rw [f8]
    have f9 : coerceCol "Deliverable %" (⟨[("Date", List.replicate v0.length (Cell.date d)), ("Symbol", v1), ("Series", v2), ("Prev Close", List.map toNumeric v3), ("Open", List.map toNumeric v4), ("High", List.map toNumeric v5), ("Low", List.map toNumeric v6), ("Last", List.map toNumeric v7), ("Close", List.map toNumeric v8), ("VWAP", List.map toNumeric v9), ("Volume", List.map toNumeric v10), ("Turnover", List.map toNumeric v11), ("Trades", List.map toNumeric v12), ("Deliverable Volume", List.map toNumeric v13), ("Deliverable %", v14), ("ISIN", v15)]⟩ : Table) = (⟨[("Date", List.replicate v0.length (Cell.date d)), ("Symbol", v1), ("Series", v2), ("Prev Close", List.map toNumeric v3), ("Open", List.map toNumeric v4), ("High", List.map toNumeric v5), ("Low", List.map toNumeric v6), ("Last", List.map toNumeric v7), ("Close", List.map toNumeric v8), ("VWAP", List.map toNumeric v9), ("Volume", List.map toNumeric v10), ("Turnover", List.map toNumeric v11), ("Trades", List.map toNumeric v12), ("Deliverable Volume", List.map toNumeric v13), ("Deliverable %", List.map toNumeric v14), ("ISIN", v15)]⟩ : Table) := rfl
    rw [f9]
    have e6 : vwapStep (⟨[("Date", List.replicate v0.length (Cell.date d)), ("Symbol", v1), ("Series", v2), ("Prev Close", List.map toNumeric v3), ("Open", List.map toNumeric v4), ("High", List.map toNumeric v5), ("Low", List.map toNumeric v6), ("Last", List.map toNumeric v7), ("Close", List.map toNumeric v8), ("VWAP", List.map toNumeric v9), ("Volume", List.map toNumeric v10), ("Turnover", List.map toNumeric v11), ("Trades", List.map toNumeric v12), ("Deliverable Volume", List.map toNumeric v13), ("Deliverable %", List.map toNumeric v14), ("ISIN", v15)]⟩ : Table) = (⟨[("Date", List.replicate v0.length (Cell.date d)), ("Symbol", v1), ("Series", v2), ("Prev Close", List.map toNumeric v3), ("Open", List.map toNumeric v4), ("High", List.map toNumeric v5), ("Low", List.map toNumeric v6), ("Last", List.map toNumeric v7), ("Close", List.map toNumeric v8), ("VWAP", List.map toNumeric v9), ("Volume", List.map toNumeric v10), ("Turnover", List.map toNumeric v11), ("Trades", List.map toNumeric v12), ("Deliverable Volume", List.map toNumeric v13), ("Deliverable %", List.map toNumeric v14), ("ISIN", v15)]⟩ : Table) := rfl
    rw [e6]
    have e7 : delivPctStep (⟨[("Date", List.replicate v0.length (Cell.date d)), ("Symbol", v1), ("Series", v2), ("Prev Close", List.map toNumeric v3), ("Open", List.map toNumeric v4), ("High", List.map toNumeric v5), ("Low", List.map toNumeric v6), ("Last", List.map toNumeric v7), ("Close", List.map toNumeric v8), ("VWAP", List.map toNumeric v9), ("Volume", List.map toNumeric v10), ("Turnover", List.map toNumeric v11), ("Trades", List.map toNumeric v12), ("Deliverable Volume", List.map toNumeric v13), ("Deliverable %", List.map toNumeric v14), ("ISIN", v15)]⟩ : Table) = (⟨[("Date", List.replicate v0.length (Cell.date d)), ("Symbol", v1), ("Series", v2), ("Prev Close", List.map toNumeric v3), ("Open", List.map toNumeric v4), ("High", List.map toNumeric v5), ("Low", List.map toNumeric v6), ("Last", List.map toNumeric v7), ("Close", List.map toNumeric v8), ("VWAP", List.map toNumeric v9), ("Volume", List.map toNumeric v10), ("Turnover", List.map toNumeric v11), ("Trades", List.map toNumeric v12), ("Deliverable Volume", List.map toNumeric v13), ("Deliverable %", List.map toNumeric v14), ("ISIN", v15)]⟩ : Table) := rfl
    rw [e7]
    have e8 : reorderStep (⟨[("Date", List.replicate v0.length (Cell.date d)), ("Symbol", v1), ("Series", v2), ("Prev Close", List.map toNumeric v3), ("Open", List.map toNumeric v4), ("High", List.map toNumeric v5), ("Low", List.map toNumeric v6), ("Last", List.map toNumeric v7), ("Close", List.map toNumeric v8), ("VWAP", List.map toNumeric v9), ("Volume", List.map toNumeric v10), ("Turnover", List.map toNumeric v11), ("Trades", List.map toNumeric v12), ("Deliverable Volume", List.map toNumeric v13), ("Deliverable %", List.map toNumeric v14), ("ISIN", v15)]⟩ : Table) = (⟨[("Date", List.replicate v0.length (Cell.date d)), ("Symbol", v1), ("Series", v2), ("Prev Close", List.map toNumeric v3), ("Open", List.map toNumeric v4), ("High", List.map toNumeric v5), ("Low", List.map toNumeric v6), ("Last", List.map toNumeric v7), ("Close", List.map toNumeric v8), ("VWAP", List.map toNumeric v9), ("Volume", List.map toNumeric v10), ("Turnover", List.map toNumeric v11), ("Trades", List.map toNumeric v12), ("Deliverable Volume", List.map toNumeric v13), ("Deliverable %", List.map toNumeric v14), ("ISIN", v15)]⟩ : Table) := rfl
    rw [e8]
  · have hg : Table.getCol (⟨[("Date", List.replicate v0.length (Cell.date d)), ("Symbol", v1), ("Series", v2), ("Prev Close", List.map toNumeric v3), ("Open", List.map toNumeric v4), ("High", List.map toNumeric v5), ("Low", List.map toNumeric v6), ("Last", List.map toNumeric v7), ("Close", List.map toNumeric v8), ("VWAP", List.map toNumeric v9), ("Volume", List.map toNumeric v10), ("Turnover", List.map toNumeric v11), ("Trades", List.map toNumeric v12), ("Deliverable Volume", List.map toNumeric v13), ("Deliverable %", List.map toNumeric v14), ("ISIN", v15)]⟩ : Table) "Volume" = List.map toNumeric v10 := rfl
    have h2 : List.map toNumeric v10 = List.map id v10 := List.map_congr_left (fun c hc => hVol c hc)
    rw [hg, h2, List.map_id]
  · have hg : Table.getCol (⟨[("Date", List.replicate v0.length (Cell.date d)), ("Symbol", v1), ("Series", v2), ("Prev Close", List.map toNumeric v3), ("Open", List.map toNumeric v4), ("High", List.map toNumeric v5), ("Low", List.map toNumeric v6), ("Last", List.map toNumeric v7), ("Close", List.map toNumeric v8), ("VWAP", List.map toNumeric v9), ("Volume", List.map toNumeric v10), ("Turnover", List.map toNumeric v11), ("Trades", List.map toNumeric v12), ("Deliverable Volume", List.map toNumeric v13), ("Deliverable %", List.map toNumeric v14), ("ISIN", v15)]⟩ : Table) "Turnover" = List.map toNumeric v11 := rfl
    have h2 : List.map toNumeric v11 = List.map id v11 := List.map_congr_left (fun c hc => hTurn c hc)
    rw [hg, h2, List.map_id]

/-- Witness for C5 at a concrete one-row canonical table. -/
theorem C5_idempotent_on_canonical_witness :
    ∃ out,
      standardize_bhavcopy
          (some ⟨[("Date", [Cell.date 5]), ("Symbol", [Cell.str "RELIANCE"]),
                  ("Series", [Cell.str "EQ"]), ("Prev Close", [Cell.num 90]),
                  ("Open", [Cell.num 91]), ("High", [Cell.num 95]), ("Low", [Cell.num 89]),
                  ("Last", [Cell.num 94]), ("Close", [Cell.num 93]), ("VWAP", [Cell.num 92]),
                  ("Volume", [Cell.num 10]), ("Turnover", [Cell.num 920]),
                  ("Trades", [Cell.num 3]), ("Deliverable Volume", [Cell.num 4]),
                  ("Deliverable %", [Cell.num 40]), ("ISIN", [Cell.str "INE002A01018"])]⟩) 9
        = some out ∧
        out.getCol "Volume" = [Cell.num 10] ∧ out.getCol "Turnover" = [Cell.num 920] :=
  C5_idempotent_on_canonical [Cell.date 5] [Cell.str "RELIANCE"] [Cell.str "EQ"] [Cell.num 90]
    [Cell.num 91] [Cell.num 95] [Cell.num 89] [Cell.num 94] [Cell.num 93] [Cell.num 92]
    [Cell.num 10] [Cell.num 920] [Cell.num 3] [Cell.num 4] [Cell.num 40]
    [Cell.str "INE002A01018"] 9 (by decide) (by decide) (by decide)

end NSE

namespace NSE

/-- `memb` is boolean list membership. -/
theorem memb_iff {s : String} {l : List String} : memb s l = true ↔ s ∈ l := by
  constructor
  · intro h
    obtain ⟨x, hx, he⟩ := List.any_eq_true.mp h
    exact (of_decide_eq_true he) ▸ hx
  · intro h
    exact List.any_eq_true.mpr ⟨s, h, by simp⟩

/-- `memb` as a decision procedure for membership. -/
theorem memb_eq_decide (s : String) (l : List String) : memb s l = decide (s ∈ l) :=
  Bool.eq_iff_iff.mpr (by rw [memb_iff, decide_eq_true_iff])

/-- A consed column with the looked-up label is returned directly. -/
theorem getCol_cons_self (n : String) (x : List Cell) (cols : List (String × List Cell)) :
    Table.getCol ⟨(n, x) :: cols⟩ n = x := by
  simp [Table.getCol, List.find?_cons_of_pos]

/-- A consed column with a different label is skipped by lookup. -/
theorem getCol_cons_ne (p : String × List Cell) (cols : List (String × List Cell))
    (m : String) (h : ¬ p.fst = m) :
    Table.getCol ⟨p :: cols⟩ m = Table.getCol ⟨cols⟩ m := by
  simp [Table.getCol, List.find?_cons_of_neg, h]

/-- Lookup in the empty table. -/
theorem getCol_nil (m : String) : Table.getCol ⟨[]⟩ m = [] := rfl

/-- `updFirst` keeps all labels unchanged. -/
theorem updFirst_map_fst (n : String) (f : List Cell → List Cell) :
    ∀ cols : List (String × List Cell), (updFirst n f cols).map Prod.fst = cols.map Prod.fst
  | [] => rfl
  | p :: ps => by
    by_cases h : p.fst = n
    · simp [updFirst, h]
    · simp [updFirst, h, updFirst_map_fst n f ps]

/-- `mapCol` keeps the header unchanged. -/
theorem names_mapCol (t : Table) (n : String) (f : Cell → Cell) :
    (t.mapCol n f).names = t.names := by
  cases t with
  | mk cols => simpa [Table.mapCol, Table.names] using updFirst_map_fst n (List.map f) cols

/-- Reading back the column just updated gives the mapped values. -/
theorem getCol_mapCol_self (t : Table) (n : String) (f : Cell → Cell) :
    (t.mapCol n f).getCol n = (t.getCol n).map f := by
  cases t with
  | mk cols =>
    induction cols with
    | nil => rfl
    | cons p ps ih =>
      obtain ⟨pn, pv⟩ := p
      show Table.getCol ⟨updFirst n (List.map f) ((pn, pv) :: ps)⟩ n = _
      rw [updFirst]
      by_cases h : pn = n
      · subst h
        rw [if_pos rfl, getCol_cons_self, getCol_cons_self]
      · rw [if_neg h, getCol_cons_ne _ _ _ h, getCol_cons_ne _ _ _ h]
        exact ih

/-- Updating one column does not change any other column. -/
theorem getCol_mapCol_ne (t : Table) (n : String) (f : Cell → Cell) (m : String)
    (h : m ≠ n) : (t.mapCol n f).getCol m = t.getCol m := by
  cases t with
  | mk cols =>
    induction cols with
    | nil => rfl
    | cons p ps ih =>
      obtain ⟨pn, pv⟩ := p
      show Table.getCol ⟨updFirst n (List.map f) ((pn, pv) :: ps)⟩ m = _
      rw [updFirst]
      by_cases hp : pn = n
      · rw [if_pos hp, getCol_cons_ne _ _ _ (fun hh => h (hh.symm.trans hp)),
          getCol_cons_ne _ _ _ (fun hh => h (hh.symm.trans hp))]
      · rw [if_neg hp]
        by_cases hm : pn = m
        · subst hm
          rw [getCol_cons_self, getCol_cons_self]
        · rw [getCol_cons_ne _ _ _ hm, getCol_cons_ne _ _ _ hm]
          exact ih

/-- Appending a fresh column keeps every other lookup unchanged. -/
theorem getCol_addCol_ne (t : Table) (n : String) (vs : List Cell) (m : String)
    (h : m ≠ n) : (t.addCol n vs).getCol m = t.getCol m := by
  cases t with
  | mk cols =>
    induction cols with
    | nil =>
      show Table.getCol ⟨[(n, vs)]⟩ m = _
      rw [getCol_cons_ne _ _ _ (fun hh => h hh.symm)]
    | cons p ps ih =>
      show Table.getCol ⟨p :: (ps ++ [(n, vs)])⟩ m = _
      by_cases hm : p.fst = m
      · obtain ⟨pn, pv⟩ := p
        cases hm
        rw [getCol_cons_self, getCol_cons_self]
      · rw [getCol_cons_ne _ _ _ hm, getCol_cons_ne _ _ _ hm]
        exact ih

/-- The header after appending a column. -/
theorem names_addCol (t : Table) (n : String) (vs : List Cell) :
    (t.addCol n vs).names = t.names ++ [n] := by
  cases t with
  | mk cols => simp [Table.addCol, Table.names]

/-- Labels of a column selection are the requested ones. -/
theorem names_selectCols (t : Table) (ns : List String) : (t.selectCols ns).names = ns := by
  show (ns.map (fun n => (n, t.getCol n))).map Prod.fst = ns
  rw [List.map_map]
  exact (List.map_congr_left (fun a _ => rfl)).trans (List.map_id ns)

/-- Selecting columns preserves the values of each requested label. -/
theorem getCol_selectCols (t : Table) (m : String) (ns : List String) (h : m ∈ ns) :
    (t.selectCols ns).getCol m = t.getCol m := by
  induction ns with
  | nil => cases h
  | cons n ns ih =>
    show Table.getCol ⟨(n, t.getCol n) :: ns.map _⟩ m = _
    by_cases hn : n = m
    · subst hn
      rw [getCol_cons_self]
    · have hm : m ∈ ns := by
        cases List.mem_cons.mp h with
        | inl hh => exact absurd hh.symm hn
        | inr hh => exact hh
      rw [getCol_cons_ne _ _ _ hn]
      exact ih hm

end NSE

namespace NSE

/-- Renaming keeps the column count and each column's values. -/
theorem nRows_renameTable (t : Table) (rm : List (String × String)) :
    (renameTable t rm).nRows = t.nRows := by
  cases t with
  | mk cols =>
    cases cols with
    | nil => rfl
    | cons p ps => rfl

/-- Header after renaming. -/
theorem names_renameTable (t : Table) (rm : List (String × String)) :
    (renameTable t rm).names = t.names.map (applyRename rm) := by
  cases t with
  | mk cols => simp [renameTable, Table.names, List.map_map, Function.comp]

/-- Updating a present column to a constant list yields that list. -/
theorem getCol_updFirst_const (n : String) (R : List Cell) :
    ∀ cols : List (String × List Cell), n ∈ cols.map Prod.fst →
      Table.getCol ⟨updFirst n (fun _ => R) cols⟩ n = R
  | [], h => absurd h (List.not_mem_nil n)
  | p :: ps, h => by
    obtain ⟨pn, pv⟩ := p
    rw [updFirst]
    by_cases hp : pn = n
    · subst hp
      rw [if_pos rfl, getCol_cons_self]
    · rw [if_neg hp, getCol_cons_ne _ _ _ hp]
      have h' : n ∈ ps.map Prod.fst := by
        cases List.mem_cons.mp h with
        | inl hh => exact absurd hh.symm hp
        | inr hh => exact hh
      exact getCol_updFirst_const n R ps h'

/-- Appending a column with a fresh label makes it retrievable. -/
theorem getCol_append_single (n : String) (R : List Cell) :
    ∀ cols : List (String × List Cell), n ∉ cols.map Prod.fst →
      Table.getCol ⟨cols ++ [(n, R)]⟩ n = R
  | [], _ => getCol_cons_self _ _ _
  | p :: ps, h => by
    have hp : ¬ p.fst = n := fun hh =>
      h (hh ▸ List.mem_map_of_mem Prod.fst (List.mem_cons_self p ps))
    show Table.getCol ⟨p :: (ps ++ [(n, R)])⟩ n = R
    rw [getCol_cons_ne _ _ _ hp]
    exact getCol_append_single n R ps (fun hm => h (List.mem_cons.mpr (Or.inr hm)))

/-- The stamped Date column is the supplied date on every row. -/
theorem getCol_setColDate (t : Table) (d : Nat) :
    (setColDate t d).getCol "Date" = List.replicate t.nRows (Cell.date d) := by
  unfold setColDate
  by_cases h : memb "Date" t.names = true
  · rw [if_pos h]
    exact getCol_updFirst_const "Date" _ t.cols (memb_iff.mp h)
  · rw [if_neg h]
    exact getCol_append_single "Date" _ t.cols (fun hm => h (memb_iff.mpr hm))

/-- Header after stamping the date. -/
theorem names_setColDate (t : Table) (d : Nat) :
    (setColDate t d).names
      = if memb "Date" t.names then t.names else t.names ++ ["Date"] := by
  unfold setColDate
  by_cases h : memb "Date" t.names = true
  · rw [if_pos h, if_pos h]
    cases t with
    | mk cols => simpa [Table.names] using updFirst_map_fst "Date" _ cols
  · rw [if_neg h, if_neg h]
    cases t with
    | mk cols => simp [Table.names]

/-- The Date label is present after stamping. -/
theorem mem_names_setColDate (t : Table) (d : Nat) : "Date" ∈ (setColDate t d).names := by
  rw [names_setColDate]
  by_cases h : memb "Date" t.names = true
  · rw [if_pos h]
    exact memb_iff.mp h
  · rw [if_neg h]
    exact List.mem_append_right _ (List.mem_singleton.mpr rfl)

end NSE

namespace NSE

/-- Volume unit normalization keeps the header. -/
theorem names_volumeStep (t : Table) (c : Option String) : (volumeStep t c).names = t.names := by
  unfold volumeStep
  split
  · dsimp only
    split
    · exact names_mapCol _ _ _
    · exact names_mapCol _ _ _
  · rfl

/-- Turnover unit normalization keeps the header. -/
theorem names_turnoverStep (t : Table) (c : Option String) :
    (turnoverStep t c).names = t.names := by
  unfold turnoverStep
  split
  · dsimp only
    split
    · exact names_mapCol _ _ _
    · split
      · exact names_mapCol _ _ _
      · exact names_mapCol _ _ _
  · rfl

/-- One coercion iteration keeps the header. -/
theorem names_coerceCol (c : String) (t : Table) : (coerceCol c t).names = t.names := by
  unfold coerceCol
  split
  · exact names_mapCol _ _ _
  · rfl

/-- The coercion loop keeps the header. -/
theorem names_foldl_coerce :
    ∀ (l : List String) (t : Table),
      (l.foldl (fun t c => coerceCol c t) t).names = t.names
  | [], _ => rfl
  | c :: cs, t => by
    rw [List.foldl_cons, names_foldl_coerce cs (coerceCol c t), names_coerceCol]

/-- The price coercion step keeps the header. -/
theorem names_priceCoerceStep (t : Table) : (priceCoerceStep t).names = t.names :=
  names_foldl_coerce priceCols t

/-- Volume unit normalization does not touch other columns. -/
theorem getCol_volumeStep_ne (t : Table) (c : Option String) (m : String)
    (h : m ≠ "Volume") : (volumeStep t c).getCol m = t.getCol m := by
  unfold volumeStep
  split
  · dsimp only
    split
    · exact getCol_mapCol_ne _ _ _ _ h
    · exact getCol_mapCol_ne _ _ _ _ h
  · rfl

/-- Turnover unit normalization does not touch other columns. -/
theorem getCol_turnoverStep_ne (t : Table) (c : Option String) (m : String)
    (h : m ≠ "Turnover") : (turnoverStep t c).getCol m = t.getCol m := by
  unfold turnoverStep
  split
  · dsimp only
    split
    · exact getCol_mapCol_ne _ _ _ _ h
    · split
      · exact getCol_mapCol_ne _ _ _ _ h
      · exact getCol_mapCol_ne _ _ _ _ h
  · rfl

/-- One coercion iteration does not touch other columns. -/
theorem getCol_coerceCol_ne (c : String) (t : Table) (m : String) (h : m ≠ c) :
    (coerceCol c t).getCol m = t.getCol m := by
  unfold coerceCol
  split
  · exact getCol_mapCol_ne _ _ _ _ h
  · rfl

/-- The coercion loop does not touch columns outside its list. -/
theorem getCol_foldl_coerce_ne (m : String) :
    ∀ (l : List String) (t : Table), (∀ c ∈ l, m ≠ c) →
      (l.foldl (fun t c => coerceCol c t) t).getCol m = t.getCol m
  | [], _, _ => rfl
  | c :: cs, t, h => by
    rw [List.foldl_cons,
      getCol_foldl_coerce_ne m cs (coerceCol c t) (fun c' hc' => h c' (List.mem_cons.mpr (Or.inr hc'))),
      getCol_coerceCol_ne c t m (h c (List.mem_cons_self c cs))]

/-- The VWAP derivation step does not touch other columns. -/
theorem getCol_vwapStep_ne (t : Table) (m : String) (h : m ≠ "VWAP") :
    (vwapStep t).getCol m = t.getCol m := by
  unfold vwapStep
  split
  · exact getCol_addCol_ne _ _ _ _ h
  · rfl

/-- The Deliverable % derivation step does not touch other columns. -/
theorem getCol_delivPctStep_ne (t : Table) (m : String) (h : m ≠ "Deliverable %") :
    (delivPctStep t).getCol m = t.getCol m := by
  unfold delivPctStep
  split
  · exact getCol_addCol_ne _ _ _ _ h
  · rfl

/-- The VWAP derivation step can only extend the header. -/
theorem mem_names_vwapStep (t : Table) (m : String) (h : m ∈ t.names) :
    m ∈ (vwapStep t).names := by
  unfold vwapStep
  split
  · rw [names_addCol]
    exact List.mem_append_left _ h
  · exact h

/-- The Deliverable % derivation step can only extend the header. -/
theorem mem_names_delivPctStep (t : Table) (m : String) (h : m ∈ t.names) :
    m ∈ (delivPctStep t).names := by
  unfold delivPctStep
  split
  · rw [names_addCol]
    exact List.mem_append_left _ h
  · exact h

/-- Row count of a selection is the length of the first selected column. -/
theorem nRows_selectCols_cons (t : Table) (n : String) (ns : List String) :
    (t.selectCols (n :: ns)).nRows = (t.getCol n).length := rfl

end NSE

namespace NSE

/-- The coercion loop over the fixed price columns, packaged. -/
theorem getCol_priceCoerceStep_ne (t : Table) (m : String)
    (h : ∀ c ∈ priceCols, m ≠ c) : (priceCoerceStep t).getCol m = t.getCol m :=
  getCol_foldl_coerce_ne m priceCols t h

/-- C6: on every non-empty input table, the normalizer stamps the supplied
trading date into the Date column of every output row, overriding or filling
any date-like raw column: the output Date column is the constant list of the
supplied date. -/
theorem C6_date_stamped (df : Table) (d : Nat) (out : Table)
    (h : standardize_bhavcopy (some df) d = some out) :
    out.getCol "Date" = List.replicate out.nRows (Cell.date d) := by
  by_cases hz : df.nRows = 0
  · rw [standardize_ite, if_pos hz] at h
    cases h
  · rw [standardize_some df d hz] at h
    injection h with h
    subst h
    set t1 := renameTable df (renamePlan df.names) with ht1
    set t2 := setColDate t1 d with ht2
    set t3 := volumeStep t2 (find_col (norm2orig df.names) (SYN "volume")) with ht3
    set t4 := turnoverStep t3 (find_col (norm2orig df.names) (SYN "turnover")) with ht4
    set t5 := priceCoerceStep t4 with ht5
    set t6 := vwapStep t5 with ht6
    set t7 := delivPctStep t6 with ht7
    have hD2 : t2.getCol "Date" = List.replicate t1.nRows (Cell.date d) := getCol_setColDate t1 d
    have hm2 : "Date" ∈ t2.names := mem_names_setColDate t1 d
    have hD3 : t3.getCol "Date" = t2.getCol "Date" := getCol_volumeStep_ne t2 _ _ (by decide)
    have hm3 : "Date" ∈ t3.names := by rw [ht3, names_volumeStep]; exact hm2
    have hD4 : t4.getCol "Date" = t3.getCol "Date" := getCol_turnoverStep_ne t3 _ _ (by decide)
    have hm4 : "Date" ∈ t4.names := by rw [ht4, names_turnoverStep]; exact hm3
    have hD5 : t5.getCol "Date" = t4.getCol "Date" := by
      rw [ht5]
      exact getCol_priceCoerceStep_ne t4 "Date" (by decide)
    have hm5 : "Date" ∈ t5.names := by rw [ht5, names_priceCoerceStep]; exact hm4
    have hD6 : t6.getCol "Date" = t5.getCol "Date" := by
      rw [ht6]
      exact getCol_vwapStep_ne t5 "Date" (by decide)
    have hm6 : "Date" ∈ t6.names := by rw [ht6]; exact mem_names_vwapStep t5 _ hm5
    have hD7 : t7.getCol "Date" = t6.getCol "Date" := by
      rw [ht7]
      exact getCol_delivPctStep_ne t6 "Date" (by decide)
    have hm7 : "Date" ∈ t7.names := by rw [ht7]; exact mem_names_delivPctStep t6 _ hm6
    have hDate7 : t7.getCol "Date" = List.replicate t1.nRows (Cell.date d) := by
      rw [hD7, hD6, hD5, hD4, hD3, hD2]
    have hmemb : memb "Date" t7.names = true := memb_iff.mpr hm7
    have hco : cols_order
        = "Date" :: ["Symbol", "Series", "Prev Close", "Open", "High", "Low", "Last", "Close",
          "VWAP", "Volume", "Turnover", "Trades", "Deliverable Volume", "Deliverable %",
          "ISIN"] := rfl
    have hfil :
        List.filter (fun c => memb c t7.names)
            ("Date" :: ["Symbol", "Series", "Prev Close", "Open", "High", "Low", "Last", "Close",
          "VWAP", "Volume", "Turnover", "Trades", "Deliverable Volume", "Deliverable %",
          "ISIN"])
          = "Date" :: List.filter (fun c => memb c t7.names)
              ["Symbol", "Series", "Prev Close", "Open", "High", "Low", "Last", "Close",
          "VWAP", "Volume", "Turnover", "Trades", "Deliverable Volume", "Deliverable %",
          "ISIN"] := by
      rw [List.filter_cons]
      simp [hmemb]
    unfold reorderStep
    dsimp only
    rw [hco, hfil, List.cons_append, nRows_selectCols_cons,
      getCol_selectCols t7 "Date" _ (List.mem_cons_self _ _), hDate7, List.length_replicate]

/-- Witness for C6 at a concrete two-column raw table. -/
theorem C6_date_stamped_witness :
    Table.getCol ⟨[("Date", [Cell.date 7]), ("Symbol", [Cell.str "X"]), ("JUNK", [Cell.str "y"])]⟩
        "Date"
      = List.replicate
          (Table.nRows
            ⟨[("Date", [Cell.date 7]), ("Symbol", [Cell.str "X"]), ("JUNK", [Cell.str "y"])]⟩)
          (Cell.date 7) :=
  C6_date_stamped ⟨[("SYMBOL", [Cell.str "X"]), ("JUNK", [Cell.str "y"])]⟩ 7
    ⟨[("Date", [Cell.date 7]), ("Symbol", [Cell.str "X"]), ("JUNK", [Cell.str "y"])]⟩ (by decide)

end NSE

namespace NSE

/-- C8: absent input or an input table with zero rows yields the explicit
"no data" signal (`none`) - not an error and not an empty table carrying the
canonical schema. -/
theorem C8_empty_input_no_data :
    (∀ d : Nat, standardize_bhavcopy none d = none) ∧
      ∀ (df : Table) (d : Nat), df.nRows = 0 → standardize_bhavcopy (some df) d = none := by
  constructor
  · intro d
    rfl
  · intro df d h
    rw [standardize_ite, if_pos h]

/-- Witness for C8: no table at all, and a two-column table with zero rows. -/
theorem C8_empty_input_no_data_witness :
    standardize_bhavcopy none 3 = none ∧
      standardize_bhavcopy (some ⟨[("SYMBOL", []), ("CLOSE", [])]⟩) 3 = none :=
  ⟨C8_empty_input_no_data.1 3, C8_empty_input_no_data.2 ⟨[("SYMBOL", []), ("CLOSE", [])]⟩ 3 rfl⟩

/-- C2 evidence: on a table carrying both an OPEN and an OPEN_PRICE column,
the exact pass resolves the `open` field to whichever alias is enumerated
first, so the picked column depends on the enumeration order of the alias
set; the Python source iterates a `set`, whose order is hash-seed dependent
rather than the declaration order the claim asserts. -/
theorem C2_exact_pass_order_dependent :
    find_col (norm2orig ["OPEN", "OPEN_PRICE"]) (SYN "open") = some "OPEN" ∧
      find_col (norm2orig ["OPEN", "OPEN_PRICE"]) ((SYN "open").reverse) = some "OPEN_PRICE" := by
  constructor
  · decide
  · decide

/-- C4: the VWAP derivation is missing-safe - Turnover 500000 over Volume
1000 gives 500 and Turnover 7 over Volume 0 gives NaN, because its `replace`
runs inside the `use_inf_as_na` context - but the Deliverable % derivation
runs its `replace` outside that context, so Deliverable Volume 500 over
Volume 0 puts +inf into the output instead of a missing value. -/
theorem C4_deliverable_pct_infinity_leak :
    standardize_bhavcopy
        (some ⟨[("SYMBOL", [Cell.str "A", Cell.str "B"]),
                ("VOLUME", [Cell.num 1000, Cell.num 0]),
                ("TURNOVER", [Cell.num 500000, Cell.num 7]),
                ("DELIV_QTY", [Cell.num 10, Cell.num 500])]⟩) 3
      = some ⟨[("Date", [Cell.date 3, Cell.date 3]),
               ("Symbol", [Cell.str "A", Cell.str "B"]),
               ("VWAP", [Cell.num 500, Cell.nan]),
               ("Volume", [Cell.num 1000, Cell.num 0]),
               ("Turnover", [Cell.num 500000, Cell.num 7]),
               ("Deliverable Volume", [Cell.num 10, Cell.num 500]),
               ("Deliverable %", [Cell.num 1, Cell.inf])]⟩ := by
  have h :
      standardize_bhavcopy
          (some ⟨[("SYMBOL", [Cell.str "A", Cell.str "B"]),
                  ("VOLUME", [Cell.num 1000, Cell.num 0]),
                  ("TURNOVER", [Cell.num 500000, Cell.num 7]),
                  ("DELIV_QTY", [Cell.num 10, Cell.num 500])]⟩) 3
        = some ⟨[("Date", [Cell.date 3, Cell.date 3]),
                 ("Symbol", [Cell.str "A", Cell.str "B"]),
                 ("VWAP", [Cell.num (500000 / 1000), Cell.nan]),
                 ("Volume", [Cell.num 1000, Cell.num 0]),
                 ("Turnover", [Cell.num 500000, Cell.num 7]),
                 ("Deliverable Volume", [Cell.num 10, Cell.num 500]),
                 ("Deliverable %", [Cell.num (10 / 1000 * 100), Cell.inf])]⟩ := by rfl
  rw [h]
  norm_num

/-- C3: the Turnover column resolved from an original name containing
"lakh"/"lac"/"lacs" is scaled by 1e5; one whose name instead contains
"cr"/"crore"/"crores" is scaled by 1e7; otherwise values are only coerced,
not rescaled.  Concretely, a raw table with Turnover 1,000,000 under the
column "TURNOVER_LACS" normalizes to Turnover 1.0e11. -/
theorem C3_turnover_unit_scaling :
    (∀ (t : Table) (c : String), "Turnover" ∈ t.names → ¬ c = "" →
      (strContains (strLower c) "lakh" = true ∨ strContains (strLower c) "lac" = true ∨
          strContains (strLower c) "lacs" = true) →
      (turnoverStep t (some c)).getCol "Turnover"
        = (t.getCol "Turnover").map (fun v => pmul (toNumeric v) 100000)) ∧
    (∀ (t : Table) (c : String), "Turnover" ∈ t.names → ¬ c = "" →
      ¬ (strContains (strLower c) "lakh" = true ∨ strContains (strLower c) "lac" = true ∨
          strContains (strLower c) "lacs" = true) →
      (strContains (strLower c) "cr" = true ∨ strContains (strLower c) "crore" = true ∨
          strContains (strLower c) "crores" = true) →
      (turnoverStep t (some c)).getCol "Turnover"
        = (t.getCol "Turnover").map (fun v => pmul (toNumeric v) 10000000)) ∧
    (∀ (t : Table) (c : String), "Turnover" ∈ t.names → ¬ c = "" →
      ¬ (strContains (strLower c) "lakh" = true ∨ strContains (strLower c) "lac" = true ∨
          strContains (strLower c) "lacs" = true) →
      ¬ (strContains (strLower c) "cr" = true ∨ strContains (strLower c) "crore" = true ∨
          strContains (strLower c) "crores" = true) →
      (turnoverStep t (some c)).getCol "Turnover" = (t.getCol "Turnover").map toNumeric) ∧
    standardize_bhavcopy
        (some ⟨[("SYMBOL", [Cell.str "X"]), ("TURNOVER_LACS", [Cell.num 1000000])]⟩) 0
      = some ⟨[("Date", [Cell.date 0]), ("Symbol", [Cell.str "X"]),
               ("Turnover", [Cell.num 100000000000])]⟩ := by
  have hemp : ∀ c : String, ¬ c = "" → c.isEmpty = false := fun c hc =>
    Bool.eq_false_iff.mpr (fun hh => hc ((String.isEmpty_iff c).mp hh))
  refine ⟨?_, ?_, ?_, ?_⟩
  · intro t c hmem hne h3
    have hcond : (memb "Turnover" t.names && truthy (some c)) = true := by
      simp [memb_iff.mpr hmem, truthy, hemp c hne]
    unfold turnoverStep
    rw [if_pos hcond]
    dsimp only [Option.getD]
    have hl : (strContains (strLower c) "lakh" || strContains (strLower c) "lac"
        || strContains (strLower c) "lacs") = true := by
      rcases h3 with h | h | h <;> simp [h]
    rw [if_pos hl]
    exact getCol_mapCol_self t "Turnover" _
  · intro t c hmem hne hno h3
    have hcond : (memb "Turnover" t.names && truthy (some c)) = true := by
      simp [memb_iff.mpr hmem, truthy, hemp c hne]
    have ha : strContains (strLower c) "lakh" = false :=
      Bool.eq_false_iff.mpr (fun hh => hno (Or.inl hh))
    have hb : strContains (strLower c) "lac" = false :=
      Bool.eq_false_iff.mpr (fun hh => hno (Or.inr (Or.inl hh)))
    have hc : strContains (strLower c) "lacs" = false :=
      Bool.eq_false_iff.mpr (fun hh => hno (Or.inr (Or.inr hh)))
    have hcr : (strContains (strLower c) "cr" || strContains (strLower c) "crore"
        || strContains (strLower c) "crores") = true := by
      rcases h3 with h | h | h <;> simp [h]
    unfold turnoverStep
    rw [if_pos hcond]
    dsimp only [Option.getD]
    rw [if_neg (by simp [ha, hb, hc]), if_pos hcr]
    exact getCol_mapCol_self t "Turnover" _
  · intro t c hmem hne hno hno2
    have hcond : (memb "Turnover" t.names && truthy (some c)) = true := by
      simp [memb_iff.mpr hmem, truthy, hemp c hne]
    have ha : strContains (strLower c) "lakh" = false :=
      Bool.eq_false_iff.mpr (fun hh => hno (Or.inl hh))
    have hb : strContains (strLower c) "lac" = false :=
      Bool.eq_false_iff.mpr (fun hh => hno (Or.inr (Or.inl hh)))
    have hc : strContains (strLower c) "lacs" = false :=
      Bool.eq_false_iff.mpr (fun hh => hno (Or.inr (Or.inr hh)))
    have hd : strContains (strLower c) "cr" = false :=
      Bool.eq_false_iff.mpr (fun hh => hno2 (Or.inl hh))
    have he : strContains (strLower c) "crore" = false :=
      Bool.eq_false_iff.mpr (fun hh => hno2 (Or.inr (Or.inl hh)))
    have hf : strContains (strLower c) "crores" = false :=
      Bool.eq_false_iff.mpr (fun hh => hno2 (Or.inr (Or.inr hh)))
    unfold turnoverStep
    rw [if_pos hcond]
    dsimp only [Option.getD]
    rw [if_neg (by simp [ha, hb, hc]), if_neg (by simp [hd, he, hf])]
    exact getCol_mapCol_self t "Turnover" _
  · have h :
        standardize_bhavcopy
            (some ⟨[("SYMBOL", [Cell.str "X"]), ("TURNOVER_LACS", [Cell.num 1000000])]⟩) 0
          = some ⟨[("Date", [Cell.date 0]), ("Symbol", [Cell.str "X"]),
                   ("Turnover", [Cell.num (1000000 * 100000)])]⟩ := by rfl
    rw [h]
    norm_num

/-- Witness for C3 on the lakh branch at a concrete single-column table. -/
theorem C3_turnover_unit_scaling_witness :
    (turnoverStep ⟨[("Turnover", [Cell.num 2])]⟩ (some "TURNOVER_LACS")).getCol "Turnover"
      = [Cell.num 200000] := by
  have h := C3_turnover_unit_scaling.1 ⟨[("Turnover", [Cell.num 2])]⟩ "TURNOVER_LACS"
    (by decide) (by decide) (Or.inr (Or.inl (by decide)))
  rw [h]
  have e : (Table.getCol ⟨[("Turnover", [Cell.num 2])]⟩ "Turnover").map
      (fun v => pmul (toNumeric v) 100000) = [Cell.num (2 * 100000)] := rfl
  rw [e]
  norm_num

end NSE

namespace NSE

/-- Lookup on the empty association list. -/
theorem lookupAssoc_nil (k : String) : lookupAssoc [] k = none := rfl

/-- Lookup steps over a cons cell. -/
theorem lookupAssoc_cons (p : String × String) (ps : List (String × String)) (k : String) :
    lookupAssoc (p :: ps) k = if p.fst = k then some p.snd else lookupAssoc ps k := by
  by_cases h : p.fst = k
  · rw [if_pos h]
    simp [lookupAssoc, List.find?_cons_of_pos, h]
  · rw [if_neg h]
    simp [lookupAssoc, List.find?_cons_of_neg, h]

/-- Lookup after a dict-style update. -/
theorem lookupAssoc_updAssoc (m : List (String × String)) (k v k' : String) :
    lookupAssoc (updAssoc m k v) k' = if k' = k then some v else lookupAssoc m k' := by
  induction m with
  | nil =>
    show lookupAssoc [(k, v)] k' = _
    rw [lookupAssoc_cons, lookupAssoc_nil]
    by_cases h : k' = k
    · subst h
      simp
    · rw [if_neg (fun hh => h hh.symm), if_neg h]
  | cons p ps ih =>
    rw [updAssoc]
    by_cases hp : p.fst = k
    · rw [if_pos hp, lookupAssoc_cons]
      by_cases h : k' = k
      · subst h
        simp
      · rw [if_neg (fun hh => h hh.symm), if_neg h, lookupAssoc_cons,
          if_neg (fun hh => h (hp.symm.trans hh).symm)]
    · rw [if_neg hp, lookupAssoc_cons]
      by_cases hk : p.fst = k'
      · rw [if_pos hk, if_neg (fun hh => hp (hk.trans hh)), lookupAssoc_cons, if_pos hk]
      · rw [if_neg hk, ih]
        by_cases h : k' = k
        · rw [if_pos h, if_pos h]
        · rw [if_neg h, if_neg h, lookupAssoc_cons, if_neg hk]

/-- Folding further columns into the dict preserves present keys. -/
theorem lookupAssoc_foldl_isSome (k : String) :
    ∀ (cols : List String) (m : List (String × String)),
      (lookupAssoc m k).isSome = true →
      (lookupAssoc (cols.foldl (fun m c => updAssoc m (_norm c) c) m) k).isSome = true
  | [], _, h => h
  | c :: cs, m, h => by
    rw [List.foldl_cons]
    apply lookupAssoc_foldl_isSome k cs
    rw [lookupAssoc_updAssoc]
    by_cases hk : k = _norm c
    · rw [if_pos hk]
      rfl
    · rw [if_neg hk]
      exact h

/-- Every column's normalized label is a key of `norm2orig`. -/
theorem norm2orig_key_isSome :
    ∀ (cols : List String) (m : List (String × String)) (c : String), c ∈ cols →
      (lookupAssoc (cols.foldl (fun m c => updAssoc m (_norm c) c) m) (_norm c)).isSome = true
  | [], _, _, h => absurd h (List.not_mem_nil _)
  | c0 :: cs, m, c, h => by
    rw [List.foldl_cons]
    cases List.mem_cons.mp h with
    | inl hh =>
      subst hh
      apply lookupAssoc_foldl_isSome
      rw [lookupAssoc_updAssoc, if_pos rfl]
      rfl
    | inr hh => exact norm2orig_key_isSome cs _ c hh

/-- Every binding of `norm2orig` maps the normalization of an actual column
to that column. -/
theorem norm2orig_lookup_spec :
    ∀ (cols : List String) (m : List (String × String)) (k v : String),
      lookupAssoc (cols.foldl (fun m c => updAssoc m (_norm c) c) m) k = some v →
      (_norm v = k ∧ v ∈ cols) ∨ lookupAssoc m k = some v
  | [], _, _, _, h => Or.inr h
  | c0 :: cs, m, k, v, h => by
    rw [List.foldl_cons] at h
    cases norm2orig_lookup_spec cs _ k v h with
    | inl hh => exact Or.inl ⟨hh.1, List.mem_cons.mpr (Or.inr hh.2)⟩
    | inr hh =>
      rw [lookupAssoc_updAssoc] at hh
      by_cases hk : k = _norm c0
      · rw [if_pos hk] at hh
        injection hh with hv
        subst hv
        exact Or.inl ⟨hk.symm, List.mem_cons.mpr (Or.inl rfl)⟩
      · rw [if_neg hk] at hh
        exact Or.inr hh

/-- C1: whenever some column's label normalizes to a declared alias of a
field, the exact pass succeeds: the field resolves to a column of the table
whose normalized label is a declared alias, and if exactly one column
matches, to that very column.  In particular "TOT_TRD_QTY",
"TotalTradedQuantity" and "Tot Trd Qty" all resolve to canonical Volume. -/
theorem C1_alias_resolution :
    (∀ (cols : List String) (f c : String), c ∈ cols → _norm c ∈ SYN f →
      ∃ c', find_col (norm2orig cols) (SYN f) = some c' ∧ c' ∈ cols ∧ _norm c' ∈ SYN f) ∧
    (∀ (cols : List String) (f c : String), c ∈ cols → _norm c ∈ SYN f →
      (∀ c'' ∈ cols, _norm c'' ∈ SYN f → c'' = c) →
      find_col (norm2orig cols) (SYN f) = some c) ∧
    lookupAssoc (renamePlan ["TOT_TRD_QTY"]) "TOT_TRD_QTY" = some "Volume" ∧
    lookupAssoc (renamePlan ["TotalTradedQuantity"]) "TotalTradedQuantity" = some "Volume" ∧
    lookupAssoc (renamePlan ["Tot Trd Qty"]) "Tot Trd Qty" = some "Volume" := by
  have main : ∀ (cols : List String) (f c : String), c ∈ cols → _norm c ∈ SYN f →
      ∃ c', find_col (norm2orig cols) (SYN f) = some c' ∧ c' ∈ cols ∧ _norm c' ∈ SYN f := by
    intro cols f c hc hn
    have hsome : ((SYN f).find? (fun k => (lookupAssoc (norm2orig cols) k).isSome)).isSome := by
      apply List.find?_isSome.mpr
      exact ⟨_norm c, hn, norm2orig_key_isSome cols [] c hc⟩
    obtain ⟨k0, hk0⟩ := Option.isSome_iff_exists.mp hsome
    have hpred := List.find?_some hk0
    have hkmem : k0 ∈ SYN f := List.mem_of_find?_eq_some hk0
    obtain ⟨v, hv⟩ := Option.isSome_iff_exists.mp hpred
    have hfc : find_col (norm2orig cols) (SYN f) = some v := by
      unfold find_col
      rw [hk0]
      exact hv
    cases norm2orig_lookup_spec cols [] k0 v hv with
    | inl hh => exact ⟨v, hfc, hh.2, by rw [hh.1]; exact hkmem⟩
    | inr hh => exact Option.noConfusion hh
  refine ⟨main, ?_, by decide, by decide, by decide⟩
  intro cols f c hc hn huniq
  obtain ⟨c', hfc, hmem, hnorm⟩ := main cols f c hc hn
  rw [hfc, huniq c' hmem hnorm]

/-- Witness for C1 at a one-column table using a Volume alias. -/
theorem C1_alias_resolution_witness :
    find_col (norm2orig ["TOT_TRD_QTY"]) (SYN "volume") = some "TOT_TRD_QTY" :=
  C1_alias_resolution.2.1 ["TOT_TRD_QTY"] "volume" "TOT_TRD_QTY" (by decide) (by decide)
    (by decide)

end NSE

namespace NSE

/-- Unfolding of `lastOf` on a cons cell. -/
theorem lastOf_cons (a : String) (l : List String) :
    lastOf (a :: l) = match lastOf l with | some v => some v | none => some a := rfl

/-- Lookup in the rename-map fold is the last write performed for a column,
falling back to the initial map when no pick writes it. -/
theorem lookup_renameFold (M : List (String × String)) (col : String) :
    ∀ (picks : List (String × String)) (m0 : List (String × String)),
      lookupAssoc
          (picks.foldl
            (fun m fp =>
              match find_col M (SYN fp.fst) with
              | some c => if c.isEmpty then m else updAssoc m c fp.snd
              | none => m)
            m0)
          col
        = match lastOf (picks.filterMap
              (fun fp =>
                match find_col M (SYN fp.fst) with
                | some c => if c.isEmpty then none else if c = col then some fp.snd else none
                | none => none)) with
          | some v => some v
          | none => lookupAssoc m0 col
  | [], m0 => rfl
  | fp :: ps, m0 => by
    rw [List.foldl_cons, List.filterMap_cons]
    cases hc : find_col M (SYN fp.fst) with
    | none =>
      dsimp only
      exact lookup_renameFold M col ps m0
    | some c =>
      dsimp only
      by_cases he : c.isEmpty
      · rw [if_pos he, if_pos he]
        exact lookup_renameFold M col ps m0
      · rw [if_neg he, if_neg he]
        by_cases hcol : c = col
        · rw [if_pos hcol]
          rw [lookup_renameFold M col ps (updAssoc m0 c fp.snd)]
          dsimp only
          cases hl : lastOf (ps.filterMap
              (fun fp =>
                match find_col M (SYN fp.fst) with
                | some c => if c.isEmpty then none else if c = col then some fp.snd else none
                | none => none)) with
          | some v =>
            rw [lastOf_cons, hl]
          | none =>
            rw [lastOf_cons, hl, lookupAssoc_updAssoc, if_pos hcol.symm]
        · rw [if_neg hcol]
          rw [lookup_renameFold M col ps (updAssoc m0 c fp.snd)]
          cases hl : lastOf (ps.filterMap
              (fun fp =>
                match find_col M (SYN fp.fst) with
                | some c => if c.isEmpty then none else if c = col then some fp.snd else none
                | none => none)) with
          | some v => rfl
          | none =>
            dsimp only
            rw [lookupAssoc_updAssoc, if_neg (fun hh => hcol hh.symm)]

/-- C10: when several fields resolve to the same original column, the rename
map ends up holding the canonical name of the last pick in the fixed source
pick order - `lookupAssoc` of the plan is exactly the last entry of the
pick-ordered write sequence `planWrites`.  Concretely, a table whose only
price header is "PREV CLOSE PRICE" (whose normalization "prevcloseprice"
fuzzy-matches both the close and the prev_close fields) comes out with a
"Prev Close" column and no "Close" column. -/
theorem C10_later_pick_wins :
    (∀ (header : List String) (col : String),
      lookupAssoc (renamePlan header) col = lastOf (planWrites header col)) ∧
    standardize_bhavcopy
        (some ⟨[("SYMBOL", [Cell.str "X"]), ("PREV CLOSE PRICE", [Cell.num 100])]⟩) 7
      = some ⟨[("Date", [Cell.date 7]), ("Symbol", [Cell.str "X"]),
               ("Prev Close", [Cell.num 100])]⟩ := by
  constructor
  · intro header col
    have h := lookup_renameFold (norm2orig header) col pickPairs []
    have h2 : (match lastOf (planWrites header col) with
        | some v => some v
        | none => lookupAssoc ([] : List (String × String)) col)
          = lastOf (planWrites header col) := by
      cases lastOf (planWrites header col) with
      | some v => rfl
      | none => rfl
    exact h.trans h2
  · rfl

end NSE

namespace NSE

/-- Filtering by the pointwise mask of a predicate is list filtering. -/
theorem maskFilter_map_self {α : Type} (p : α → Bool) :
    ∀ l : List α, maskFilter (l.map p) l = l.filter p
  | [] => rfl
  | a :: l => by
    rw [List.map_cons, List.filter_cons]
    cases hp : p a with
    | true =>
      show a :: maskFilter (l.map p) l = _
      rw [maskFilter_map_self p l, if_pos rfl]
    | false =>
      show maskFilter (l.map p) l = _
      rw [maskFilter_map_self p l, if_neg (by simp)]

/-- A mask filter keeps as many entries as the mask has `true`s. -/
theorem maskFilter_length {α : Type} :
    ∀ (mask : List Bool) (vs : List α), vs.length = mask.length →
      (maskFilter mask vs).length = trueCount mask
  | [], vs, h => by
    cases vs with
    | nil => rfl
    | cons v vs => simp at h
  | true :: bs, vs, h => by
    cases vs with
    | nil => simp at h
    | cons v vs =>
      show (v :: maskFilter bs vs).length = _
      rw [List.length_cons, maskFilter_length bs vs (by simpa using h)]
      rfl
  | false :: bs, vs, h => by
    cases vs with
    | nil => simp at h
    | cons v vs =>
      show (maskFilter bs vs).length = _
      rw [maskFilter_length bs vs (by simpa using h)]
      rfl

/-- `getD` through a map, at an index inside the list. -/
theorem getD_map {α β : Type} (f : α → β) :
    ∀ (l : List α) (j : Nat) (d : α), j < l.length → (l.map f).getD j (f d) = f (l.getD j d)
  | [], _, _, h => absurd h (by simp)
  | _ :: _, 0, _, _ => rfl
  | _ :: l, j + 1, d, h => getD_map f l j d (Nat.lt_of_succ_lt_succ h)

/-- A list of length `n + 1` is its head consed on its tail. -/
theorem headD_cons_tail {n : Nat} :
    ∀ l : List Cell, l.length = n + 1 → l.headD Cell.nan :: l.tail = l
  | [], h => by simp at h
  | _ :: _, _ => rfl

/-- Projecting every row of the row view at a fixed column index gives that
column's values. -/
theorem colsToRows_map_getD :
    ∀ (n : Nat) (cs : List (String × List Cell)) (j : Nat),
      j < cs.length → (∀ p ∈ cs, p.snd.length = n) →
      (colsToRows n cs).map (fun r => r.getD j Cell.nan) = (cs.getD j ("", [])).snd
  | 0, cs, j, hj, hlen => by
    have hm : cs.getD j ("", []) ∈ cs := by
      rw [List.getD_eq_get cs ("", []) hj]
      exact List.get_mem cs j hj
    have h0 : (cs.getD j ("", [])).snd.length = 0 := hlen _ hm
    rw [List.length_eq_zero.mp h0]
    rfl
  | n + 1, cs, j, hj, hlen => by
    show ((cs.map (fun p => p.snd.headD Cell.nan))
          :: colsToRows n (cs.map (fun p => (p.fst, p.snd.tail)))).map
        (fun r => r.getD j Cell.nan) = _
    rw [List.map_cons]
    have hhead : (cs.map (fun p => p.snd.headD Cell.nan)).getD j Cell.nan
        = (cs.getD j ("", [])).snd.headD Cell.nan :=
      getD_map (fun p => p.snd.headD Cell.nan) cs j ("", []) hj
    have htail : (colsToRows n (cs.map (fun p => (p.fst, p.snd.tail)))).map
          (fun r => r.getD j Cell.nan)
        = ((cs.map (fun p => (p.fst, p.snd.tail))).getD j ("", [])).snd := by
      apply colsToRows_map_getD n _ j
      · rw [List.length_map]
        exact hj
      · intro p hp
        obtain ⟨q, hq, hpe⟩ := List.mem_map.mp hp
        rw [← hpe]
        show q.snd.tail.length = n
        have := hlen q hq
        cases hsnd : q.snd with
        | nil => rw [hsnd] at this; simp at this
        | cons v vs =>
          rw [hsnd] at this
          simpa using this
    have htail2 : ((cs.map (fun p => (p.fst, p.snd.tail))).getD j ("", [])).snd
        = (cs.getD j ("", [])).snd.tail :=
      congrArg Prod.snd (getD_map (fun p => (p.fst, p.snd.tail)) cs j ("", []) hj)
    rw [hhead, htail, htail2]
    have hm : cs.getD j ("", []) ∈ cs := by
      rw [List.getD_eq_get cs ("", []) hj]
      exact List.get_mem cs j hj
    exact headD_cons_tail _ (hlen _ hm)

/-- Mask-filtering every column commutes with taking the row view. -/
theorem colsToRows_maskFilter :
    ∀ (mask : List Bool) (cs : List (String × List Cell)),
      (∀ p ∈ cs, p.snd.length = mask.length) →
      colsToRows (trueCount mask) (cs.map (fun p => (p.fst, maskFilter mask p.snd)))
        = maskFilter mask (colsToRows mask.length cs)
  | [], cs, _ => rfl
  | b :: bs, cs, h => by
    have hpt : ∀ p ∈ cs, ∃ v vs, p.snd = v :: vs ∧ vs.length = bs.length := by
      intro p hp
      have hl := h p hp
      cases hsnd : p.snd with
      | nil => rw [hsnd] at hl; simp at hl
      | cons v vs =>
        rw [hsnd] at hl
        exact ⟨v, vs, rfl, by simpa using hl⟩
    cases b with
    | true =>
      show (cs.map (fun p => (p.fst, maskFilter (true :: bs) p.snd))).map
            (fun p => p.snd.headD Cell.nan)
          :: colsToRows (trueCount bs)
              ((cs.map (fun p => (p.fst, maskFilter (true :: bs) p.snd))).map
                (fun p => (p.fst, p.snd.tail)))
        = (cs.map (fun p => p.snd.headD Cell.nan))
          :: maskFilter bs (colsToRows bs.length (cs.map (fun p => (p.fst, p.snd.tail))))
      congr 1
      · rw [List.map_map]
        apply List.map_congr_left
        intro p hp
        obtain ⟨v, vs, hsnd, _⟩ := hpt p hp
        show (maskFilter (true :: bs) p.snd).headD Cell.nan = p.snd.headD Cell.nan
        rw [hsnd]
        rfl
      · have hmap : (cs.map (fun p => (p.fst, maskFilter (true :: bs) p.snd))).map
              (fun p => (p.fst, p.snd.tail))
            = (cs.map (fun p => (p.fst, p.snd.tail))).map
                (fun p => (p.fst, maskFilter bs p.snd)) := by
          rw [List.map_map, List.map_map]
          apply List.map_congr_left
          intro p hp
          obtain ⟨v, vs, hsnd, _⟩ := hpt p hp
          show (p.fst, (maskFilter (true :: bs) p.snd).tail) = (p.fst, maskFilter bs p.snd.tail)
          rw [hsnd]
          rfl
        rw [hmap]
        apply colsToRows_maskFilter bs
        intro p hp
        obtain ⟨q, hq, hpe⟩ := List.mem_map.mp hp
        obtain ⟨v, vs, hsnd, hlen⟩ := hpt q hq
        rw [← hpe]
        show q.snd.tail.length = bs.length
        rw [hsnd]
        exact hlen
    | false =>
      show colsToRows (trueCount bs)
            (cs.map (fun p => (p.fst, maskFilter (false :: bs) p.snd)))
          = maskFilter bs (colsToRows bs.length (cs.map (fun p => (p.fst, p.snd.tail))))
      have hmap : cs.map (fun p => (p.fst, maskFilter (false :: bs) p.snd))
          = (cs.map (fun p => (p.fst, p.snd.tail))).map
              (fun p => (p.fst, maskFilter bs p.snd)) := by
        rw [List.map_map]
        apply List.map_congr_left
        intro p hp
        obtain ⟨v, vs, hsnd, _⟩ := hpt p hp
        show (p.fst, maskFilter (false :: bs) p.snd) = (p.fst, maskFilter bs p.snd.tail)
        rw [hsnd]
        rfl
      rw [hmap]
      apply colsToRows_maskFilter bs
      intro p hp
      obtain ⟨q, hq, hpe⟩ := List.mem_map.mp hp
      obtain ⟨v, vs, hsnd, hlen⟩ := hpt q hq
      rw [← hpe]
      show q.snd.tail.length = bs.length
      rw [hsnd]
      exact hlen

/-- `getCol` of a present label is the column at its first index. -/
theorem getCol_eq_getD_firstIdx :
    ∀ (cols : List (String × List Cell)) (n : String), n ∈ cols.map Prod.fst →
      firstIdx n (cols.map Prod.fst) < cols.length ∧
      Table.getCol ⟨cols⟩ n = (cols.getD (firstIdx n (cols.map Prod.fst)) ("", [])).snd
  | [], n, h => absurd h (by simp)
  | p :: ps, n, h => by
    rw [List.map_cons, firstIdx]
    by_cases hp : p.fst = n
    · rw [if_pos hp]
      refine ⟨Nat.succ_pos _, ?_⟩
      obtain ⟨pn, pv⟩ := p
      cases hp
      rw [getCol_cons_self]
      rfl
    · rw [if_neg hp]
      have hmem : n ∈ ps.map Prod.fst := by
        cases List.mem_cons.mp h with
        | inl hh => exact absurd hh.symm hp
        | inr hh => exact hh
      obtain ⟨hlt, heq⟩ := getCol_eq_getD_firstIdx ps n hmem
      refine ⟨Nat.succ_lt_succ hlt, ?_⟩
      rw [getCol_cons_ne _ _ _ hp, heq]
      rfl

/-- In a well-formed table, a present column has the common row count. -/
theorem getCol_length_of_WF (t : Table) (n : String) (h : n ∈ t.names) (hwf : t.WF) :
    (t.getCol n).length = t.nRows := by
  obtain ⟨hlt, heq⟩ := getCol_eq_getD_firstIdx t.cols n h
  have hm : t.cols.getD (firstIdx n (t.cols.map Prod.fst)) ("", []) ∈ t.cols := by
    rw [List.getD_eq_get t.cols ("", []) hlt]
    exact List.get_mem t.cols _ hlt
  show (Table.getCol ⟨t.cols⟩ n).length = t.nRows
  rw [heq]
  exact hwf _ hm

end NSE

namespace NSE

/-- Unfolding of the watchlist filter on a present table. -/
theorem filter_selected_ite (t : Table) (wl : List String) :
    filter_selected_stocks (some t) wl
      = if t.nRows = 0 then ⟨[]⟩
        else ⟨t.cols.map (fun p =>
            (p.fst, maskFilter ((t.getCol "Symbol").map (cellInWatch wl)) p.snd))⟩ := rfl

/-- C9: the watchlist filter keeps exactly the rows whose Symbol cell is a
string in the fixed watchlist (case-sensitive exact match), with every field
of every kept row unchanged - its row view is the filter of the input's row
view by the Symbol predicate; absent or empty input gives the empty frame
without raising. -/
theorem C9_watchlist_filter :
    (∀ t : Table, t.WF → "Symbol" ∈ t.names →
      (filter_selected_stocks (some t) WATCHLIST).rowsOf
        = t.rowsOf.filter (fun r => cellInWatch WATCHLIST (rowSym t r))) ∧
    filter_selected_stocks none WATCHLIST = ⟨[]⟩ ∧
    (∀ t : Table, t.nRows = 0 → filter_selected_stocks (some t) WATCHLIST = ⟨[]⟩) := by
  refine ⟨?_, rfl, ?_⟩
  · intro t hwf hsym
    by_cases hz : t.nRows = 0
    · have h1 : filter_selected_stocks (some t) WATCHLIST = ⟨[]⟩ := by
        rw [filter_selected_ite, if_pos hz]
      have h2 : t.rowsOf = [] := by
        unfold Table.rowsOf
        rw [hz]
        rfl
      rw [h1, h2]
      rfl
    · have hmask_len : (t.getCol "Symbol").length = t.nRows := getCol_length_of_WF t _ hsym hwf
      have hml : ((t.getCol "Symbol").map (cellInWatch WATCHLIST)).length = t.nRows := by
        rw [List.length_map]
        exact hmask_len
      have hfil : filter_selected_stocks (some t) WATCHLIST
          = ⟨t.cols.map (fun p =>
              (p.fst, maskFilter ((t.getCol "Symbol").map (cellInWatch WATCHLIST)) p.snd))⟩ := by
        rw [filter_selected_ite, if_neg hz]
      rw [hfil]
      have hwf' : ∀ p ∈ t.cols,
          p.snd.length = ((t.getCol "Symbol").map (cellInWatch WATCHLIST)).length := by
        intro p hp
        rw [hml]
        exact hwf p hp
      have hnF : Table.nRows
          ⟨t.cols.map (fun p =>
            (p.fst, maskFilter ((t.getCol "Symbol").map (cellInWatch WATCHLIST)) p.snd))⟩
          = trueCount ((t.getCol "Symbol").map (cellInWatch WATCHLIST)) := by
        cases hc : t.cols with
        | nil =>
          exfalso
          have : "Symbol" ∈ t.names := hsym
          rw [show t.names = t.cols.map Prod.fst from rfl, hc] at this
          exact absurd this (by simp)
        | cons p ps =>
          show (maskFilter ((t.getCol "Symbol").map (cellInWatch WATCHLIST)) p.snd).length = _
          have hpm : p ∈ t.cols := by
            rw [hc]
            exact List.mem_cons_self p ps
          exact maskFilter_length _ p.snd (hwf' p hpm)
      show Table.rowsOf _ = _
      unfold Table.rowsOf
      rw [hnF, colsToRows_maskFilter _ t.cols hwf', hml]
      have hmrows : (t.getCol "Symbol").map (cellInWatch WATCHLIST)
          = (colsToRows t.nRows t.cols).map
              (fun r => cellInWatch WATCHLIST (rowSym t r)) := by
        obtain ⟨hlt, heq⟩ := getCol_eq_getD_firstIdx t.cols "Symbol" hsym
        have hcol : t.getCol "Symbol"
            = (colsToRows t.nRows t.cols).map
                (fun r => r.getD (firstIdx "Symbol" (t.cols.map Prod.fst)) Cell.nan) := by
          rw [show t.getCol "Symbol" = Table.getCol ⟨t.cols⟩ "Symbol" from rfl, heq,
            colsToRows_map_getD t.nRows t.cols _ hlt (fun p hp => hwf p hp)]
        rw [hcol, List.map_map]
        apply List.map_congr_left
        intro r _
        rfl
      rw [hmrows, maskFilter_map_self]
  · intro t h
    rw [filter_selected_ite, if_pos h]

/-- Witness for C9 at a concrete two-row table. -/
theorem C9_watchlist_filter_witness :
    (filter_selected_stocks
        (some ⟨[("Symbol", [Cell.str "RELIANCE", Cell.str "ZZZ"]),
                ("Close", [Cell.num 1, Cell.num 2])]⟩) WATCHLIST).rowsOf
      = (Table.rowsOf ⟨[("Symbol", [Cell.str "RELIANCE", Cell.str "ZZZ"]),
            ("Close", [Cell.num 1, Cell.num 2])]⟩).filter
          (fun r => cellInWatch WATCHLIST
            (rowSym ⟨[("Symbol", [Cell.str "RELIANCE", Cell.str "ZZZ"]),
              ("Close", [Cell.num 1, Cell.num 2])]⟩ r)) :=
  C9_watchlist_filter.1
    ⟨[("Symbol", [Cell.str "RELIANCE", Cell.str "ZZZ"]), ("Close", [Cell.num 1, Cell.num 2])]⟩
    (by intro p hp; fin_cases hp <;> rfl) (by decide)

end NSE

namespace NSE

/-- The VWAP step either keeps the header or appends "VWAP". -/
theorem names_vwapStep_or (t : Table) :
    (vwapStep t).names = t.names ∨ (vwapStep t).names = t.names ++ ["VWAP"] := by
  unfold vwapStep
  split
  · exact Or.inr (names_addCol _ _ _)
  · exact Or.inl rfl

/-- The Deliverable % step either keeps the header or appends its column. -/
theorem names_delivPctStep_or (t : Table) :
    (delivPctStep t).names = t.names ∨ (delivPctStep t).names = t.names ++ ["Deliverable %"] := by
  unfold delivPctStep
  split
  · exact Or.inr (names_addCol _ _ _)
  · exact Or.inl rfl

/-- Header after the final reorder. -/
theorem names_reorderStep (t : Table) :
    (reorderStep t).names
      = cols_order.filter (fun c => memb c t.names)
        ++ t.names.filter
            (fun c => !memb c (cols_order.filter (fun c2 => memb c2 t.names))) := by
  unfold reorderStep
  dsimp only
  exact names_selectCols _ _

/-- Reordering does not change the set of labels. -/
theorem mem_reorderStep_iff (t : Table) (c : String) :
    c ∈ (reorderStep t).names ↔ c ∈ t.names := by
  rw [names_reorderStep]
  constructor
  · intro hc
    rcases List.mem_append.mp hc with h | h
    · exact memb_iff.mp (List.mem_filter.mp h).2
    · exact (List.mem_filter.mp h).1
  · intro hc
    by_cases hco : c ∈ cols_order
    · exact List.mem_append.mpr (Or.inl (List.mem_filter.mpr ⟨hco, memb_iff.mpr hc⟩))
    · refine List.mem_append.mpr (Or.inr (List.mem_filter.mpr ⟨hc, ?_⟩))
      have hf : memb c (cols_order.filter (fun c2 => memb c2 t.names)) = false := by
        apply Bool.eq_false_iff.mpr
        intro hh
        exact hco (List.mem_filter.mp (memb_iff.mp hh)).1
      rw [hf]
      rfl

/-- `lastOf` returns an element of the list. -/
theorem lastOf_mem : ∀ (l : List String) (v : String), lastOf l = some v → v ∈ l
  | [], _, h => Option.noConfusion h
  | a :: l, v, h => by
    rw [lastOf_cons] at h
    cases hl : lastOf l with
    | some w =>
      rw [hl] at h
      injection h with h
      subst h
      exact List.mem_cons.mpr (Or.inr (lastOf_mem l _ hl))
    | none =>
      rw [hl] at h
      injection h with h
      subst h
      exact List.mem_cons_self _ _

/-- Every canonical rename target is one of the fixed canonical names. -/
theorem plan_target_mem (header : List String) (c v : String)
    (h : lookupAssoc (renamePlan header) c = some v) : v ∈ cols_order := by
  have hf : lookupAssoc (renamePlan header) c
      = match lastOf (planWrites header c) with
        | some w => some w
        | none => lookupAssoc ([] : List (String × String)) c :=
    lookup_renameFold (norm2orig header) c pickPairs []
  rw [hf] at h
  cases hl : lastOf (planWrites header c) with
  | none =>
    rw [hl] at h
    exact Option.noConfusion h
  | some w =>
    rw [hl] at h
    injection h with h
    have hmem : v ∈ planWrites header c := h ▸ lastOf_mem _ _ hl
    obtain ⟨fp, hfp, hfpv⟩ := List.mem_filterMap.mp hmem
    have hsnd : v = fp.snd := by
      cases hc2 : find_col (norm2orig header) (SYN fp.fst) with
      | none =>
        rw [hc2] at hfpv
        dsimp only at hfpv
        exact Option.noConfusion hfpv
      | some cc =>
        rw [hc2] at hfpv
        dsimp only at hfpv
        by_cases he : cc.isEmpty
        · rw [if_pos he] at hfpv
          exact Option.noConfusion hfpv
        · rw [if_neg he] at hfpv
          by_cases hcc : cc = c
          · rw [if_pos hcc] at hfpv
            injection hfpv with hfpv
            exact hfpv.symm
          · rw [if_neg hcc] at hfpv
            exact Option.noConfusion hfpv
    have hall : ∀ fp ∈ pickPairs, Prod.snd fp ∈ cols_order := by decide
    rw [hsnd]
    exact hall fp hfp

/-- Filtering a mapped list is mapping the filtered list. -/
theorem filter_of_map {α β : Type} (f : α → β) (p : β → Bool) :
    ∀ l : List α, (l.map f).filter p = (l.filter (fun a => p (f a))).map f
  | [] => rfl
  | a :: l => by
    rw [List.map_cons, List.filter_cons, List.filter_cons]
    cases hp : p (f a) with
    | true =>
      rw [if_pos rfl, if_pos rfl, List.map_cons, filter_of_map f p l]
    | false =>
      rw [if_neg (by simp), if_neg (by simp), filter_of_map f p l]

/-- C7: the normalizer's output header is the present canonical columns in
the fixed canonical order followed by the unresolved original columns, kept
under their original names in their original relative order; and no column
is dropped - every original column survives under its (possibly renamed)
label. -/
theorem C7_output_column_order (df : Table) (d : Nat) (out : Table)
    (h : standardize_bhavcopy (some df) d = some out) :
    out.names
        = cols_order.filter (fun c => decide (c ∈ out.names))
          ++ df.names.filter (fun c =>
              decide (lookupAssoc (renamePlan df.names) c = none ∧ c ∉ cols_order)) ∧
      ∀ c ∈ df.names, applyRename (renamePlan df.names) c ∈ out.names := by
  by_cases hz : df.nRows = 0
  · rw [standardize_ite, if_pos hz] at h
    cases h
  · rw [standardize_some df d hz] at h
    injection h with h
    subst h
    set rm := renamePlan df.names with hrm
    set t1 := renameTable df rm with ht1
    set t2 := setColDate t1 d with ht2
    set t3 := volumeStep t2 (find_col (norm2orig df.names) (SYN "volume")) with ht3
    set t4 := turnoverStep t3 (find_col (norm2orig df.names) (SYN "turnover")) with ht4
    set t5 := priceCoerceStep t4 with ht5
    set t6 := vwapStep t5 with ht6
    set t7 := delivPctStep t6 with ht7
    have hbase : t1.names = df.names.map (applyRename rm) := names_renameTable df rm
    obtain ⟨s2, hs2, hs2co⟩ : ∃ s, t2.names = t1.names ++ s ∧ ∀ x ∈ s, x ∈ cols_order := by
      rw [ht2, names_setColDate]
      by_cases hD : memb "Date" t1.names = true
      · rw [if_pos hD]
        exact ⟨[], (List.append_nil _).symm, by intro x hx; cases hx⟩
      · rw [if_neg hD]
        refine ⟨["Date"], rfl, ?_⟩
        intro x hx
        rw [List.mem_singleton] at hx
        subst hx
        decide
    have hn5 : t5.names = t2.names := by
      rw [ht5, names_priceCoerceStep, ht4, names_turnoverStep, ht3, names_volumeStep]
    obtain ⟨s6, hs6, hs6co⟩ : ∃ s, t6.names = t5.names ++ s ∧ ∀ x ∈ s, x ∈ cols_order := by
      rw [ht6]
      cases names_vwapStep_or t5 with
      | inl hh => exact ⟨[], by rw [hh, List.append_nil], by intro x hx; cases hx⟩
      | inr hh =>
        refine ⟨["VWAP"], hh, ?_⟩
        intro x hx
        rw [List.mem_singleton] at hx
        subst hx
        decide
    obtain ⟨s7, hs7, hs7co⟩ : ∃ s, t7.names = t6.names ++ s ∧ ∀ x ∈ s, x ∈ cols_order := by
      rw [ht7]
      cases names_delivPctStep_or t6 with
      | inl hh => exact ⟨[], by rw [hh, List.append_nil], by intro x hx; cases hx⟩
      | inr hh =>
        refine ⟨["Deliverable %"], hh, ?_⟩
        intro x hx
        rw [List.mem_singleton] at hx
        subst hx
        decide
    have h7names : t7.names = df.names.map (applyRename rm) ++ (s2 ++ (s6 ++ s7)) := by
      rw [hs7, hs6, hn5, hs2, hbase, List.append_assoc, List.append_assoc]
    have hsufco : ∀ x ∈ s2 ++ (s6 ++ s7), x ∈ cols_order := by
      intro x hx
      rcases List.mem_append.mp hx with hx | hx
      · exact hs2co x hx
      · rcases List.mem_append.mp hx with hx | hx
        · exact hs6co x hx
        · exact hs7co x hx
    have hmemiff : ∀ c, c ∈ (reorderStep t7).names ↔ c ∈ t7.names := mem_reorderStep_iff t7
    constructor
    · have hpres : cols_order.filter (fun c => memb c t7.names)
          = cols_order.filter (fun c => decide (c ∈ (reorderStep t7).names)) := by
        apply List.filter_congr
        intro c _
        rw [memb_eq_decide]
        exact decide_eq_decide.mpr (hmemiff c).symm
      have e1 : t7.names.filter
            (fun c => !memb c (cols_order.filter (fun c2 => memb c2 t7.names)))
          = t7.names.filter (fun c => !memb c cols_order) := by
        apply List.filter_congr
        intro c hc
        have hmm : memb c (cols_order.filter (fun c2 => memb c2 t7.names))
            = memb c cols_order := by
          rw [memb_eq_decide, memb_eq_decide]
          apply decide_eq_decide.mpr
          constructor
          · intro hmem2
            exact (List.mem_filter.mp hmem2).1
          · intro hmem2
            exact List.mem_filter.mpr ⟨hmem2, memb_iff.mpr hc⟩
        rw [hmm]
      have e2 : t7.names.filter (fun c => !memb c cols_order)
          = (df.names.map (applyRename rm)).filter (fun c => !memb c cols_order) := by
        rw [h7names, List.filter_append]
        have hnil : (s2 ++ (s6 ++ s7)).filter (fun c => !memb c cols_order) = [] := by
          apply List.filter_eq_nil.mpr
          intro a ha
          simp [memb_iff.mpr (hsufco a ha)]
        rw [hnil, List.append_nil]
      have e3 : (df.names.map (applyRename rm)).filter (fun c => !memb c cols_order)
          = (df.names.filter (fun a => !memb (applyRename rm a) cols_order)).map
              (applyRename rm) :=
        filter_of_map (applyRename rm) (fun c => !memb c cols_order) df.names
      have e4 : df.names.filter (fun a => !memb (applyRename rm a) cols_order)
          = df.names.filter
              (fun c => decide (lookupAssoc rm c = none ∧ c ∉ cols_order)) := by
        apply List.filter_congr
        intro c _
        cases hl : lookupAssoc rm c with
        | some v =>
          have happ : applyRename rm c = v := by
            unfold applyRename
            rw [hl]
          have hv : v ∈ cols_order := plan_target_mem df.names c v (hrm ▸ hl)
          rw [happ]
          simp [memb_iff.mpr hv, hl]
        | none =>
          have happ : applyRename rm c = c := by
            unfold applyRename
            rw [hl]
          rw [happ, memb_eq_decide]
          by_cases hc : c ∈ cols_order
          · simp [hc, hl]
          · simp [hc, hl]
      have e5 : (df.names.filter
              (fun c => decide (lookupAssoc rm c = none ∧ c ∉ cols_order))).map
            (applyRename rm)
          = df.names.filter
              (fun c => decide (lookupAssoc rm c = none ∧ c ∉ cols_order)) := by
        have hid : ∀ c ∈ df.names.filter
            (fun c => decide (lookupAssoc rm c = none ∧ c ∉ cols_order)),
            applyRename rm c = id c := by
          intro c hcf
          have hp := (List.mem_filter.mp hcf).2
          have hand := of_decide_eq_true hp
          show applyRename rm c = c
          unfold applyRename
          rw [hand.1]
        rw [List.map_congr_left hid, List.map_id]
      have main : (reorderStep t7).names
          = cols_order.filter (fun c => decide (c ∈ (reorderStep t7).names))
            ++ df.names.filter
                (fun c => decide (lookupAssoc rm c = none ∧ c ∉ cols_order)) := by
        conv_lhs => rw [names_reorderStep]
        rw [e1, e2, e3, e4, e5, hpres]
      exact main
    · intro c hc
      apply (hmemiff _).mpr
      rw [h7names]
      exact List.mem_append_left _ (List.mem_map_of_mem _ hc)

/-- Witness for C7 at a concrete raw table with one resolvable and one
unrecognized column. -/
theorem C7_output_column_order_witness :
    (Table.names ⟨[("Date", [Cell.date 7]), ("Symbol", [Cell.str "X"]), ("JUNK", [Cell.str "y"])]⟩
        = cols_order.filter (fun c => decide (c ∈ Table.names
            ⟨[("Date", [Cell.date 7]), ("Symbol", [Cell.str "X"]), ("JUNK", [Cell.str "y"])]⟩))
          ++ (Table.names ⟨[("SYMBOL", [Cell.str "X"]), ("JUNK", [Cell.str "y"])]⟩).filter
              (fun c => decide (lookupAssoc
                  (renamePlan (Table.names ⟨[("SYMBOL", [Cell.str "X"]), ("JUNK", [Cell.str "y"])]⟩)) c
                    = none ∧ c ∉ cols_order))) ∧
      ∀ c ∈ Table.names ⟨[("SYMBOL", [Cell.str "X"]), ("JUNK", [Cell.str "y"])]⟩,
        applyRename (renamePlan (Table.names ⟨[("SYMBOL", [Cell.str "X"]), ("JUNK", [Cell.str "y"])]⟩)) c
          ∈ Table.names ⟨[("Date", [Cell.date 7]), ("Symbol", [Cell.str "X"]), ("JUNK", [Cell.str "y"])]⟩ :=
  C7_output_column_order ⟨[("SYMBOL", [Cell.str "X"]), ("JUNK", [Cell.str "y"])]⟩ 7
    ⟨[("Date", [Cell.date 7]), ("Symbol", [Cell.str "X"]), ("JUNK", [Cell.str "y"])]⟩ (by decide)

end NSE
